import Mathlib

/-!
Verification of AutoPkg's recipe-resolution and trust-verification engine
(`Code/autopkg.py`), shallowly embedded in Lean 4.

Recipe documents are Python dictionaries with a fixed set of recognised keys;
we embed them as a structure of `Option` fields, where `none` means the key is
absent.  Dictionary-valued keys (`Input`, trust records) are embedded as
association lists that keep Python's insertion-order semantics.  Filesystem,
git and preference access is captured by an explicit environment `Env` of
read-only observation functions, and the recursive parent-chain resolution of
`load_recipe` is made structurally terminating with a fuel parameter.
-/

namespace Autopkg

/-- A step of a recipe `Process`: `{Processor: ..., Arguments: ...}`.
`Arguments` are opaque to the engine; steps spliced in for preprocessors and
postprocessors carry no `Arguments` key. -/
structure Step where
  processor : String
  arguments : Option (List (String × String)) := none
deriving DecidableEq, Repr

/-- The value of a `Recipe` key in an override: a mapping that may carry
`identifier` and/or `name` entries. -/
structure RecipeRef where
  identifier : Option String := none
  rname : Option String := none
deriving DecidableEq, Repr

/-- The value stored under a `ParentRecipe` key.  Documents read from disk
always hold an identifier string; `load_recipe` may re-attach the override's
`Recipe` mapping under this key (line 424 of the source). -/
inductive ParentVal where
  | idStr (s : String)
  | ref (r : RecipeRef)
deriving DecidableEq, Repr

/-- One entry of a trust record: `{path, sha256_hash, git_hash?}`. -/
structure TrustEntry where
  path : String
  sha256_hash : String
  git_hash : Option String := none
deriving DecidableEq, Repr

/-- `{parent_recipes: {identifier: entry}, non_core_processors: {name: entry}}`. -/
structure TrustRecord where
  parent_recipes : List (String × TrustEntry)
  non_core_processors : List (String × TrustEntry)
deriving DecidableEq, Repr

/-- A recipe document: a mapping with the keys the engine recognises.
`none` models an absent key. -/
structure RecipeDoc where
  Identifier : Option String := none
  Description : Option String := none
  MinimumVersion : Option String := none
  Input : Option (List (String × String)) := none
  Process : Option (List Step) := none
  ParentRecipe : Option ParentVal := none
  Recipe : Option RecipeRef := none
  ParentRecipeTrustInfo : Option TrustRecord := none
  RECIPE_PATH : Option String := none
  PARENT_RECIPES : Option (List String) := none
  name : Option String := none
deriving DecidableEq, Repr

/-- The read-only world the engine observes: filesystem, recipe parsing,
git collaborator, preferences, and the (out-of-scope) GitHub fallback of
`locate_recipe`, abstracted as a function from a lookup name to the path that
whole interactive branch would produce. -/
structure Env where
  isFile : String → Bool
  fileExists : String → Bool
  readRecipe : String → Option RecipeDoc
  dirname : String → String
  normalize : String → String
  expanduser : String → String
  relpath : String → String → String
  homeDir : String
  subdirs : String → List String
  recipeFiles : String → List String
  github : String → Option String
  sha256 : String → String
  gitToplevel : String → Option String
  gitRevList : String → String → Option String
  gitDiff : String → String → String → Option String
  gitLog : String → String → String → Option String
  prefRecipeRepos : List String
  prefRecipeSearchDirs : List String
  coreProcessors : List String

/-! ## Character-level string helpers

Python `str.startswith` / `str.endswith` / slicing / `str.split`, modelled
directly over the character lists of the strings so that every definition
reduces by structural recursion. -/

/-- Python `s.startswith(pre)`. -/
def str_starts_with (s pre : String) : Bool := pre.data.isPrefixOf s.data

/-- Python `s.endswith(suf)`. -/
def str_ends_with (s suf : String) : Bool :=
  suf.data.reverse.isPrefixOf s.data.reverse

/-- Python `s[:-n]` for `0 < n ≤ len(s)`: drop the last `n` characters. -/
def str_drop_right (s : String) (n : Nat) : String :=
  String.mk (s.data.take (s.data.length - n))

/-- Python `s.split(c)` on a single-character separator. -/
def split_on_char (c : Char) : List Char → List (List Char)
  | [] => [[]]
  | x :: xs =>
    let r := split_on_char c xs
    if x = c then [] :: r
    else match r with
      | [] => [[x]]
      | h :: t => (x :: h) :: t

/-- Python `int(s)` on a non-empty all-digit string, `None` otherwise. -/
def chars_to_nat? (l : List Char) : Option Nat :=
  if l ≠ [] ∧ l.all (fun c => c.isDigit) then
    some (l.foldl (fun n c => n * 10 + (c.toNat - 48)) 0)
  else none

/-- Python `sep.join(l)`. -/
def str_intercalate (sep : String) : List String → String
  | [] => ""
  | h :: t => t.foldl (fun acc x => acc ++ sep ++ x) h

/-! ## Python dictionary semantics over association lists -/

/-- `d[k]` / `d.get(k)` on a Python dict embedded as an association list. -/
def alookup {α : Type} (k : String) : List (String × α) → Option α
  | [] => none
  | p :: t => if p.1 = k then some p.2 else alookup k t

/-- `d[k] = v` on a Python dict: replace in place if the key exists,
otherwise append. -/
def dict_set {α : Type} (d : List (String × α)) (k : String) (v : α) :
    List (String × α) :=
  if (alookup k d).isSome then
    d.map (fun p => if p.1 = k then (k, v) else p)
  else d ++ [(k, v)]

/-- `for key in child: d[key] = child[key]` — the `Input` overlay of
`load_recipe` (source lines 392–393). -/
def dict_merge {α : Type} (d child : List (String × α)) : List (String × α) :=
  child.foldl (fun acc p => dict_set acc p.1 p.2) d

/-- Python `==` on two dicts embedded as association lists: equal key sets
with equal values, irrespective of insertion order. -/
def dict_eqv {α : Type} [DecidableEq α] (a b : List (String × α)) : Bool :=
  a.all (fun p => alookup p.1 b == some p.2) &&
    b.all (fun p => alookup p.1 a == some p.2)

/-- Python `==` on two trust records. -/
def record_eqv (a b : TrustRecord) : Bool :=
  dict_eqv a.parent_recipes b.parent_recipes &&
    dict_eqv a.non_core_processors b.non_core_processors

/-! ## Version comparison

`version_equal_or_greater` is imported from `autopkglib`, which is not part of
this tree.  Modelled from the spec: `MinimumVersion` is a dotted version
string and merging takes "the dotted-version maximum of parent and child"; we
compare the dotted numeric segments lexicographically. -/

/-- Modelled from the spec: parse a dotted version string into its numeric
segments. -/
def parse_dotted (s : String) : List Nat :=
  (split_on_char '.' s.data).map (fun seg => (chars_to_nat? seg).getD 0)

/-- Lexicographic comparison of dotted-version segment lists; a longer list
with an equal front is greater (`1 < 1.0`), matching Python list comparison. -/
def ver_cmp : List Nat → List Nat → Ordering
  | [], [] => .eq
  | [], _ :: _ => .lt
  | _ :: _, [] => .gt
  | a :: as, b :: bs => if a < b then .lt else if b < a then .gt else ver_cmp as bs

/-- Modelled from the spec: `version_equal_or_greater a b` holds when dotted
version `a` is at least dotted version `b`. -/
def version_equal_or_greater (a b : String) : Bool :=
  match ver_cmp (parse_dotted a) (parse_dotted b) with
  | .lt => false
  | _ => true

/-! ## Recipe finder (`valid_recipe_dict`, `find_recipe_by_name`, `find_recipe`,
`locate_recipe`) -/

/-- First hit of `f` over a list, mirroring a `for` loop with early `return`. -/
def first_some {α β : Type} (f : α → Option β) : List α → Option β
  | [] => none
  | x :: xs => match f x with
    | some b => some b
    | none => first_some f xs

/-- `os.path.join` for the joins the engine performs (directory + entry name). -/
def path_join (a b : String) : String := a ++ "/" ++ b

/-- Modelled from the spec: `RECIPE_EXTS` lives in `autopkglib`, absent from
this tree.  The fixed ordered set of recognised recipe file extensions, plist
first, with `.recipe.yaml` the YAML alternative. -/
def RECIPE_EXTS : List String := [".recipe", ".recipe.plist", ".recipe.yaml"]

/-- Modelled from the spec: `remove_recipe_extension` lives in `autopkglib`,
absent from this tree.  Drops a recognised recipe extension from the end of a
name, if one is present. -/
def remove_recipe_extension (name : String) : String :=
  match RECIPE_EXTS.find? (fun ext => str_ends_with name ext) with
  | some ext => str_drop_right name ext.length
  | none => name

/-- `valid_recipe_dict` (source lines 123–130): `Input` plus one of `Process`,
`Recipe`, `ParentRecipe`; a document that failed to parse (`none`) is invalid. -/
def valid_recipe_dict (doc : Option RecipeDoc) : Bool :=
  match doc with
  | none => false
  | some d =>
    (d.Input.isSome && d.Process.isSome) || (d.Input.isSome && d.Recipe.isSome)
      || (d.Input.isSome && d.ParentRecipe.isSome)

/-- `valid_recipe_file` (source lines 133–137). -/
def valid_recipe_file (env : Env) (filename : String) : Bool :=
  valid_recipe_dict (env.readRecipe filename)

/-- Modelled from the spec: `get_identifier` lives in `autopkglib`, absent from
this tree.  The declared identifier of a recipe document. -/
def get_identifier (d : RecipeDoc) : Option String := d.Identifier

/-- Modelled from the spec: `find_recipe_by_identifier` lives in `autopkglib`,
absent from this tree.  Searches each directory, at top level and one level of
subdirectories, for a recipe document whose declared identifier equals the key;
the first hit in directory order wins.  `identifier_candidates` is the list of
recipe files one directory contributes, in the order they are examined. -/
def identifier_candidates (env : Env) (d : String) : List String :=
  env.recipeFiles (env.normalize d) ++
    (env.subdirs (env.normalize d)).flatMap
      (fun s => env.recipeFiles (path_join (env.normalize d) s))

/-- Modelled from the spec: the identifier search itself — first candidate
file, in directory order, whose document declares the requested identifier. -/
def find_recipe_by_identifier (env : Env) (identifier : String)
    (search_dirs : List String) : Option String :=
  first_some
    (fun d =>
      (identifier_candidates env d).find?
        (fun f => match env.readRecipe f with
          | some doc => get_identifier doc == some identifier
          | none => false))
    search_dirs

/-- `find_recipe_by_name` (source lines 155–174): per directory, glob for
`name + ext` at top level then one level down, every recognised extension, and
return the first match that is a valid recipe file. -/
def find_recipe_by_name (env : Env) (name0 : String) (search_dirs : List String) :
    Option String :=
  let name := remove_recipe_extension name0
  first_some
    (fun d =>
      let nd := env.normalize d
      let top := RECIPE_EXTS.filterMap
        (fun ext =>
          let p := path_join nd (name ++ ext)
          if env.isFile p then some p else none)
      let sub := RECIPE_EXTS.flatMap
        (fun ext => (env.subdirs nd).filterMap
          (fun s =>
            let p := path_join (path_join nd s) (name ++ ext)
            if env.isFile p then some p else none))
      (top ++ sub).find? (fun m => valid_recipe_file env m))
    search_dirs

/-- `find_recipe` (source lines 177–182): identifier search over the whole
path first, name search only if that fails. -/
def find_recipe (env : Env) (id_or_name : String) (search_dirs : List String) :
    Option String :=
  match find_recipe_by_identifier env id_or_name search_dirs with
  | some f => some f
  | none => find_recipe_by_name env id_or_name search_dirs

/-- `locate_recipe` (source lines 235–324).  The GitHub fallback (lines
264–323) performs remote search and interactive prompts — out-of-scope
collaborators — and is abstracted as `env.github`, the path that whole branch
would produce for a name. -/
def locate_recipe (env : Env) (name : String)
    (override_dirs recipe_dirs : List String) (search_github : Bool) :
    Option String :=
  let rf : Option String :=
    if env.isFile name && valid_recipe_file env name then some name else none
  let rf : Option String :=
    match rf with
    | some f => some f
    | none => find_recipe env name (override_dirs ++ recipe_dirs)
  match rf with
  | some f => some f
  | none => if search_github then env.github name else none

/-! ## Recipe loader / inheritance resolver (`load_recipe`) -/

/-- Truthiness of a `ParentRecipe` value: a non-empty string, or a non-empty
`Recipe` mapping. -/
def ref_truthy (r : RecipeRef) : Bool := r.identifier.isSome || r.rname.isSome

/-- Truthiness of an optional `ParentRecipe` value. -/
def parent_val_truthy : Option ParentVal → Bool
  | some (.idStr s) => !(s == "")
  | some (.ref r) => ref_truthy r
  | none => false

/-- `recipe.get("ParentRecipe") or recipe.get("Recipe")` (source lines 365,
370): the first truthy of the two, `none` when both are falsy. -/
def parent_val (d : RecipeDoc) : Option ParentVal :=
  if parent_val_truthy d.ParentRecipe then d.ParentRecipe
  else match d.Recipe with
    | some r => if ref_truthy r then some (.ref r) else none
    | none => none

/-- Does the document refer to a parent recipe (source line 370)? -/
def refers_to_parent (d : RecipeDoc) : Bool :=
  (parent_val d).isSome

/-- The `Recipe`-mapping arm of `get_identifier_from_override` (source lines
192–204): prefer a truthy `identifier`, falling back with a warning to `name`. -/
def identifier_from_recipe_ref (d : RecipeDoc) : Option String :=
  match d.Recipe with
  | none => none
  | some r =>
    match r.identifier with
    | some i => if i == "" then r.rname else some i
    | none => r.rname

/-- `get_identifier_from_override` (source lines 185–204): prefer a truthy
`ParentRecipe` string.  A mapping stored under `ParentRecipe` (which cannot
occur in a document read from disk) would be returned as-is by the source and
crash downstream; we model that as a failed lookup. -/
def get_identifier_from_override (d : RecipeDoc) : Option String :=
  match d.ParentRecipe with
  | some (.idStr s) => if s == "" then identifier_from_recipe_ref d else some s
  | some (.ref r) =>
    if ref_truthy r then none else identifier_from_recipe_ref d
  | none => identifier_from_recipe_ref d

/-- `recipe_in_override_dir` (source lines 1503–1512): the normalized recipe
path starts with some normalized override directory. -/
def recipe_in_override_dir (env : Env) (recipe_path : String)
    (override_dirs : List String) : Bool :=
  override_dirs.any
    (fun d => str_starts_with (env.normalize recipe_path) (env.normalize d))

/-- The parent-child merge of `load_recipe` (source lines 386–411), applied to
the resolved parent `recipe` and the located child document.  The source
mutates `recipe` in place; we build the merged document.  The source indexes
`recipe["Process"]` and `child_recipe["Input"]` directly — a resolved parent
always carries `Process` and a valid child always carries `Input`, so the
`getD` defaults are never exercised on reachable inputs. -/
def merge_parent_child (recipe child : RecipeDoc) (recipe_file : String) :
    RecipeDoc :=
  let cmv := child.MinimumVersion.getD "0"
  let pmv := recipe.MinimumVersion.getD "0"
  { recipe with
    Identifier := get_identifier child
    Description := some (match child.Description with
      | some dsc => dsc
      | none => recipe.Description.getD "")
    Input := some (dict_merge (recipe.Input.getD []) (child.Input.getD []))
    MinimumVersion := some (if version_equal_or_greater cmv pmv then cmv else pmv)
    Process := some (recipe.Process.getD [] ++ child.Process.getD [])
    PARENT_RECIPES := match recipe.RECIPE_PATH with
      | some rp =>
        if rp == "" then recipe.PARENT_RECIPES
        else some (rp :: recipe.PARENT_RECIPES.getD [])
      | none => recipe.PARENT_RECIPES
    RECIPE_PATH := some recipe_file }

/-- The stored parent trust info of the located document, kept only when it is
an override (source lines 362–367): the embedded trust record together with
`override_parent`. -/
def trust_pair_of (env : Env) (doc : RecipeDoc) (recipe_file : String)
    (override_dirs : List String) :
    Option (TrustRecord × Option ParentVal) :=
  if recipe_in_override_dir env recipe_file override_dirs then
    match doc.ParentRecipeTrustInfo with
    | some t => some (t, parent_val doc)
    | none => none
  else none

/-- Source lines 418–428: re-add the stored trust info (and the override's
parent reference, when truthy), or strip any trust info picked up from a
parent recipe. -/
def attach_trust (tp : Option (TrustRecord × Option ParentVal))
    (r : RecipeDoc) : RecipeDoc :=
  match tp with
  | some (t, op) =>
    { r with ParentRecipeTrustInfo := some t
             ParentRecipe := match op with
               | some pv => some pv
               | none => r.ParentRecipe }
  | none => { r with ParentRecipeTrustInfo := none }

/-- Source line 432: store the name the user used to locate the recipe. -/
def set_name (n : String) (r : RecipeDoc) : RecipeDoc := { r with name := some n }

/-- A step spliced in for a pre- or postprocessor name (source lines 437, 444). -/
def mk_step (n : String) : Step := { processor := n }

/-- Source lines 434–439: splice preprocessor steps at the front. -/
def add_preprocessors (pres : List String) (r : RecipeDoc) : RecipeDoc :=
  if pres.isEmpty then r
  else { r with Process := some (pres.map mk_step ++ r.Process.getD []) }

/-- Source lines 441–445: splice postprocessor steps at the back. -/
def add_postprocessors (posts : List String) (r : RecipeDoc) : RecipeDoc :=
  if posts.isEmpty then r
  else { r with Process := some (r.Process.getD [] ++ posts.map mk_step) }

/-- `load_recipe` (source lines 327–447).  `fuel` bounds the parent-chain
recursion depth (the source would loop forever on a cyclic chain).  The parent
is loaded with override directories suppressed and the child's own directory
appended to the search path.  A missing parent identifier (source would crash
or search for `None`) and a failed parent load both yield `none`, as the
source logs an error and returns no usable recipe. -/
def load_recipe (env : Env) :
    Nat → String → List String → List String → List String → List String →
      Bool → Option RecipeDoc
  | 0, _, _, _, _, _, _ => none
  | fuel + 1, name, override_dirs, recipe_dirs, preprocessors, postprocessors,
      search_github =>
    match locate_recipe env name override_dirs recipe_dirs search_github with
    | none => none
    | some recipe_file =>
      match env.readRecipe recipe_file with
      | none => none
      | some doc =>
        let tp := trust_pair_of env doc recipe_file override_dirs
        let recipe1 : Option RecipeDoc :=
          if refers_to_parent doc then
            match get_identifier_from_override doc with
            | none => none
            | some parent_id =>
              match load_recipe env fuel parent_id []
                  (recipe_dirs ++ [env.dirname recipe_file]) [] []
                  search_github with
              | some parent => some (merge_parent_child parent doc recipe_file)
              | none => none
          else some { doc with RECIPE_PATH := some recipe_file }
        (((recipe1.map (attach_trust tp)).map (set_name name)).map
            (add_preprocessors preprocessors)).map
          (add_postprocessors postprocessors)

/-! ## Trust model (`get_trust_info`, `verify_parent_trust`) -/

/-- Python `str.rstrip`, for the trailing newlines the git helpers strip. -/
def rstrip_nl (s : String) : String :=
  String.mk ((s.data.reverse.dropWhile (fun c => c == '\n')).reverse)

/-- `getsha256hash` (source lines 1327–1339). -/
def getsha256hash (env : Env) (filepath : String) : String :=
  if env.isFile filepath then env.sha256 filepath else "NOT A FILE"

/-- `get_git_commit_hash` (source lines 1286–1324): working-copy root of the
file's directory, most recent commit touching the file, then a diff between
that commit and the on-disk content; any git failure, or a non-empty diff,
yields `none`. -/
def get_git_commit_hash (env : Env) (filepath : String) : Option String :=
  match env.gitToplevel (env.dirname filepath) with
  | none => none
  | some top_raw =>
    let top := rstrip_nl top_raw
    let rel := env.relpath filepath top
    match env.gitRevList top rel with
    | none => none
    | some out =>
      let git_hash := rstrip_nl out
      match env.gitDiff git_hash rel top with
      | none => none
      | some d => if rstrip_nl d == "" then some git_hash else none

/-- `os_path_compressuser` (source lines 1384–1392). -/
def os_path_compressuser (env : Env) (pathname : String) : String :=
  if pathname == env.homeDir then "~"
  else if str_starts_with pathname env.homeDir then
    "~/" ++ env.relpath pathname env.homeDir
  else pathname

/-- Modelled from the spec: `extract_processor_name_with_recipe_identifier`
lives in `autopkglib`, absent from this tree.  Splits an identifier-qualified
processor name `recipe.identifier/ProcessorName` into processor name and
recipe identifier. -/
def extract_processor_name_with_recipe_identifier (processor_name : String) :
    String × Option String :=
  match split_on_char '/' processor_name.data with
  | [] => (processor_name, none)
  | [p] => (String.mk p, none)
  | p0 :: rest =>
    (str_intercalate "/" (rest.map String.mk), some (String.mk p0))

/-- `find_processor_path` (source lines 1342–1381): search the recipe's own
directory, the directory of an identifier-qualified shared-processor recipe,
then the parent recipes' directories, for `name + ".py"`.  The source builds
the parent directories through a Python `set` whose iteration order is
unspecified; we keep first-occurrence order (the spec records this
tie-breaking as an open question). -/
def find_processor_path (env : Env) (processor_name : String)
    (recipe : Option RecipeDoc) : Option String :=
  match recipe with
  | none => none
  | some r =>
    let recipe_dir := env.dirname (r.RECIPE_PATH.getD "")
    let pr := extract_processor_name_with_recipe_identifier processor_name
    let dirs1 : List String :=
      match pr.2 with
      | some rid =>
        (match find_recipe_by_identifier env rid env.prefRecipeSearchDirs with
         | some sp => [recipe_dir, env.dirname sp]
         | none => [recipe_dir])
      | none => [recipe_dir]
    let dirs2 := dirs1 ++ ((r.PARENT_RECIPES.getD []).map env.dirname).eraseDups
    first_some
      (fun d =>
        let fp := path_join d (pr.1 ++ ".py")
        if env.fileExists fp then some fp else none)
      dirs2

/-- Python truthiness applied to an optional git hash (source lines 1410,
1433): attach only a non-`None`, non-empty hash. -/
def truthy_hash : Option String → Option String
  | some s => if s == "" then none else some s
  | none => none

/-- One `parent_recipes` entry of `get_trust_info` (source lines 1401–1411),
keyed by the identifier of the recipe re-loaded from the chain path.  The
source would crash if that load failed; we key such an entry by `""`. -/
def mk_parent_entry (env : Env) (fuel : Nat) (search_dirs : List String)
    (p : String) : String × TrustEntry :=
  let idr := match load_recipe env fuel p [] search_dirs [] [] true with
    | some r => (get_identifier r).getD ""
    | none => ""
  (idr,
    { path := os_path_compressuser env p
      sha256_hash := getsha256hash env p
      git_hash := truthy_hash (get_git_commit_hash env p) })

/-- One `non_core_processors` entry of `get_trust_info` (source lines
1419–1434): a processor whose file cannot be located yields the synthetic
hash and an empty path. -/
def mk_proc_entry (env : Env) (recipe : RecipeDoc) (p : String) :
    TrustEntry :=
  match find_processor_path env p (some recipe) with
  | some pp =>
    { path := os_path_compressuser env pp
      sha256_hash := getsha256hash env pp
      git_hash := truthy_hash (get_git_commit_hash env pp) }
  | none =>
    { path := os_path_compressuser env ""
      sha256_hash := "PROCESSOR FILEPATH NOT FOUND"
      git_hash := none }

/-- `get_trust_info` (source lines 1395–1440): hash every chain path
(`PARENT_RECIPES` then the recipe's own path) and every non-core processor
referenced by the merged `Process`. -/
def get_trust_info (env : Env) (fuel : Nat) (recipe : RecipeDoc)
    (search_dirs : List String) : TrustRecord :=
  let parent_recipe_paths :=
    recipe.PARENT_RECIPES.getD [] ++ [recipe.RECIPE_PATH.getD ""]
  let parent_recipe_hashes := parent_recipe_paths.foldl
    (fun d p =>
      let e := mk_parent_entry env fuel search_dirs p
      dict_set d e.1 e.2) []
  let recipe_processors := (recipe.Process.getD []).map Step.processor
  let non_core := recipe_processors.filter
    (fun p => !(env.coreProcessors.contains p))
  let non_core_processor_hashes := non_core.foldl
    (fun d p => dict_set d p (mk_proc_entry env recipe p)) []
  { non_core_processors := non_core_processor_hashes
    parent_recipes := parent_recipe_hashes }

/-- `get_git_diff` (source lines 1443–1458): best-effort, `""` on any git
error. -/
def get_git_diff (env : Env) (filepath0 git_hash : String) : String :=
  let filepath := env.expanduser filepath0
  match env.gitToplevel (env.dirname filepath) with
  | none => ""
  | some top_raw =>
    let top := rstrip_nl top_raw
    let rel := env.relpath filepath top
    (env.gitDiff git_hash rel top).getD ""

/-- `get_git_log` (source lines 1461–1478): best-effort, `""` on any git
error. -/
def get_git_log (env : Env) (filepath0 git_hash : String) : String :=
  let filepath := env.expanduser filepath0
  match env.gitToplevel (env.dirname filepath) with
  | none => ""
  | some top_raw =>
    let top := rstrip_nl top_raw
    let rel := env.relpath filepath top
    (env.gitLog git_hash rel top).getD ""

/-- `recipe_from_external_repo` (source lines 1493–1500): the raw recipe path
starts with a registered repo directory (no normalization in the source). -/
def recipe_from_external_repo (env : Env) (recipe_path : String) : Bool :=
  env.prefRecipeRepos.any (fun repo => str_starts_with recipe_path repo)

/-- Outcome of `verify_parent_trust`: normal return, a raised
`TrustVerificationWarning`, a raised `TrustVerificationError`, or an uncaught
exception of the source (e.g. a `KeyError` on a missing `ParentRecipe`). -/
inductive VerifyResult where
  | ok
  | warning (msg : String)
  | error (msg : String)
  | crash
deriving DecidableEq, Repr

/-- Python repr of a list of strings, as interpolated into the parent-list
mismatch message. -/
def py_str_list (xs : List String) : String :=
  "[" ++ str_intercalate ", " (xs.map (fun s => "\x27" ++ s ++ "\x27")) ++ "]"

/-- Python `==` on two key lists viewed as sets (source line 1613). -/
def same_key_set (a b : List String) : Bool :=
  a.all (fun k => b.contains k) && b.all (fun k => a.contains k)

/-- Per-processor fragment of the expected-processors loop (source lines
1577–1602); empty when the stored and computed hashes agree. -/
def proc_expected_frag (env : Env) (recipe : RecipeDoc) (verbosity : Nat)
    (expected actual : TrustRecord) (p : String) : String :=
  match alookup p expected.non_core_processors with
  | none => ""
  | some ent =>
    let actual_hash := (alookup p actual.non_core_processors).map
      TrustEntry.sha256_hash
    if actual_hash == some ent.sha256_hash then ""
    else
      let fpp := find_processor_path env p (some recipe)
      let base := match fpp with
        | some pathv =>
          "Processor " ++ p ++ " contents differ from expected.\n" ++
            "    Path: " ++ pathv ++ "\n"
        | none => "Expected processor " ++ p ++ " can\x27t be found.\n"
      let pathv := match fpp with
        | some pv => pv
        | none => ent.path
      let extra := match ent.git_hash with
        | some gh =>
          if verbosity > 1 && !(pathv == "") && !(gh == "") then
            get_git_diff env pathv gh ++ get_git_log env pathv gh ++ "\n"
          else ""
        | none => ""
      base ++ extra

/-- Per-processor fragment of the unexpected-processors loop (source lines
1603–1608). -/
def proc_unexpected_frag (env : Env) (recipe : RecipeDoc)
    (expected_names : List String) (p : String) : String :=
  if expected_names.contains p then ""
  else
    "Unexpected processor found: " ++ p ++ "\n" ++
      match find_processor_path env p (some recipe) with
      | some pathv => "    Path: " ++ pathv ++ "\n"
      | none => ""

/-- The parent-recipe key-set mismatch message (source lines 1613–1615); the
source interpolates the expected list on both lines. -/
def parent_list_frag (expected_parent_recipes : List String) : String :=
  "Expected parent recipe list: [" ++ py_str_list expected_parent_recipes ++
    "]\n" ++
    "Actual parent recipe list: [" ++ py_str_list expected_parent_recipes ++
    "]\n"

/-- Per-parent fragment of the expected-parents loop (source lines
1616–1648); empty when the stored and computed hashes agree. -/
def parent_expected_frag (env : Env) (fuel : Nat)
    (override_dirs search_dirs : List String) (verbosity : Nat)
    (expected actual : TrustRecord) (pid : String) : String :=
  match alookup pid expected.parent_recipes with
  | none => ""
  | some ent =>
    let actual_hash := (alookup pid actual.parent_recipes).map
      TrustEntry.sha256_hash
    if actual_hash == some ent.sha256_hash then ""
    else
      let pr := load_recipe env fuel pid override_dirs search_dirs [] [] false
      let base := match pr with
        | some prr =>
          "Parent recipe " ++ pid ++ " contents differ from expected.\n" ++
            "    Path: " ++ prr.RECIPE_PATH.getD "" ++ "\n"
        | none => "Expected parent recipe " ++ pid ++ " can\x27t be found.\n"
      let pathv := match pr with
        | some prr => prr.RECIPE_PATH.getD ""
        | none => ent.path
      let extra := match ent.git_hash with
        | some gh =>
          if verbosity > 1 && !(pathv == "") && !(gh == "") then
            get_git_log env pathv gh ++ get_git_diff env pathv gh ++ "\n"
          else ""
        | none => ""
      base ++ extra

/-- Per-parent fragment of the unexpected-parents loop (source lines
1649–1660). -/
def parent_unexpected_frag (env : Env) (fuel : Nat)
    (override_dirs search_dirs : List String)
    (expected_names : List String) (pid : String) : String :=
  if expected_names.contains pid then ""
  else
    "Unexpected parent recipe found: " ++ pid ++ "\n" ++
      match load_recipe env fuel pid override_dirs search_dirs [] [] false with
      | some prr => "    Path: " ++ prr.RECIPE_PATH.getD "" ++ "\n"
      | none => ""

/-- The accumulated `trust_errors` body of `verify_parent_trust` (source lines
1573–1660).  The source iterates the processor names through Python `set`s
whose order is unspecified; we iterate the stored key lists in order, which
reports the same fragments. -/
def trust_diff_errors (env : Env) (fuel : Nat) (recipe : RecipeDoc)
    (override_dirs search_dirs : List String) (verbosity : Nat)
    (expected actual : TrustRecord) : String :=
  let expected_processor_names := expected.non_core_processors.map Prod.fst
  let actual_processor_names := actual.non_core_processors.map Prod.fst
  let e1 := expected_processor_names.foldl
    (fun acc p => acc ++ proc_expected_frag env recipe verbosity expected actual p)
    ""
  let e2 := actual_processor_names.foldl
    (fun acc p => acc ++ proc_unexpected_frag env recipe expected_processor_names p)
    e1
  let expected_parent_recipes := expected.parent_recipes.map Prod.fst
  let actual_parent_recipes := actual.parent_recipes.map Prod.fst
  let e3 :=
    if same_key_set expected_parent_recipes actual_parent_recipes then e2
    else e2 ++ parent_list_frag expected_parent_recipes
  let e4 := expected_parent_recipes.foldl
    (fun acc pid => acc ++ parent_expected_frag env fuel override_dirs
      search_dirs verbosity expected actual pid)
    e3
  actual_parent_recipes.foldl
    (fun acc pid => acc ++ parent_unexpected_frag env fuel override_dirs
      search_dirs expected_parent_recipes pid)
    e4

/-- Python truthiness of an embedded `ParentRecipeTrustInfo` value: a present
trust record (always a non-empty two-key mapping). -/
def trust_truthy (t : Option TrustRecord) : Bool := t.isSome

/-- `verify_parent_trust` (source lines 1515–1663).  Checks run in source
order: trust info outside an override directory warns; missing trust info
warns; a recipe path inside a registered external repo errors; then the
freshly computed record for the re-loaded parent is compared with the stored
one — equal records succeed at once, otherwise the accumulated per-field
differences (if any) are raised as one error. -/
def verify_parent_trust (env : Env) (fuel : Nat) (recipe : RecipeDoc)
    (override_dirs search_dirs : List String) (verbosity : Nat) :
    VerifyResult :=
  let recipe_path := recipe.RECIPE_PATH.getD ""
  if trust_truthy recipe.ParentRecipeTrustInfo &&
      !(recipe_in_override_dir env recipe_path override_dirs) then
    .warning ("Trust information in non-override recipe." ++
      (if verbosity > 1 then
        "\nTrust info should only be stored in local recipe overrides." ++
          "\nTrust info found in " ++ recipe_path
      else ""))
  else if !(trust_truthy recipe.ParentRecipeTrustInfo) then
    if recipe_in_override_dir env recipe_path override_dirs &&
        !((recipe.PARENT_RECIPES.getD []).isEmpty) then
      .warning ("No trust information present." ++
        (if verbosity > 1 then
          "\nAudit the parent recipe, then run:\n\tautopkg update-trust-info " ++
            recipe.name.getD ""
        else ""))
    else
      .warning ("No trust information present." ++
        (if verbosity > 1 then
          "\nAudit the recipe, then store trust info by running:\n" ++
            "\tautopkg make-override " ++ recipe.name.getD ""
        else ""))
  else if recipe_from_external_repo env recipe_path then
    .error ("Recipe from external repo: embedded trust info will be ignored. " ++
      "Audit the recipe, then create an override to trust it.")
  else
    match recipe.ParentRecipe with
    | some (.idStr pid) =>
      (match load_recipe env fuel pid override_dirs search_dirs [] [] false with
       | none => .crash
       | some parent_recipe =>
         match recipe.ParentRecipeTrustInfo with
         | none => .crash
         | some expected =>
           let actual := get_trust_info env fuel parent_recipe search_dirs
           if record_eqv actual expected then .ok
           else
             let errs := trust_diff_errors env fuel recipe override_dirs
               search_dirs verbosity expected actual
             if errs == "" then .ok else .error errs)
    | _ => .crash

/-! ## Association-list lemmas -/

theorem alookup_nil {α : Type} (k : String) :
    alookup k ([] : List (String × α)) = none := rfl

theorem alookup_cons {α : Type} (k a : String) (v : α)
    (t : List (String × α)) :
    alookup k ((a, v) :: t) = if a = k then some v else alookup k t := rfl

theorem alookup_not_mem {α : Type} {k : String} :
    ∀ {d : List (String × α)}, k ∉ d.map Prod.fst → alookup k d = none := by
  intro d
  induction d with
  | nil => intro _; rfl
  | cons p t ih =>
    intro h
    obtain ⟨a, v⟩ := p
    simp only [List.map_cons, List.mem_cons, not_or] at h
    rw [alookup_cons, if_neg (fun hc => h.1 hc.symm)]
    exact ih h.2

theorem alookup_append {α : Type} (k : String) :
    ∀ (d e : List (String × α)),
      alookup k (d ++ e) = (alookup k d).or (alookup k e) := by
  intro d e
  induction d with
  | nil => simp [alookup, Option.or]
  | cons p t ih =>
    obtain ⟨a, v⟩ := p
    rw [List.cons_append, alookup_cons, alookup_cons]
    by_cases hp : a = k
    · rw [if_pos hp, if_pos hp]
      rfl
    · rw [if_neg hp, if_neg hp, ih]

theorem alookup_map_replace_ne {α : Type} {k k' : String} (v : α)
    (hk : k' ≠ k) :
    ∀ (d : List (String × α)),
      alookup k' (d.map (fun p => if p.1 = k then (k, v) else p)) =
        alookup k' d := by
  intro d
  induction d with
  | nil => rfl
  | cons p t ih =>
    obtain ⟨a, w⟩ := p
    by_cases ha : a = k
    · subst ha
      simp only [List.map_cons, ite_true]
      rw [alookup_cons, alookup_cons, if_neg (fun hc => hk hc.symm),
        if_neg (fun hc => hk hc.symm)]
      exact ih
    · simp only [List.map_cons, if_neg ha]
      rw [alookup_cons, alookup_cons]
      by_cases hak : a = k'
      · rw [if_pos hak, if_pos hak]
      · rw [if_neg hak, if_neg hak]
        exact ih

theorem alookup_map_replace_mem {α : Type} {k : String} (v : α) :
    ∀ (d : List (String × α)), (alookup k d).isSome →
      alookup k (d.map (fun p => if p.1 = k then (k, v) else p)) = some v := by
  intro d
  induction d with
  | nil => intro h; cases h
  | cons p t ih =>
    intro hmem
    obtain ⟨a, w⟩ := p
    by_cases ha : a = k
    · subst ha
      simp only [List.map_cons, ite_true]
      rw [alookup_cons, if_pos rfl]
    · simp only [List.map_cons, if_neg ha]
      rw [alookup_cons, if_neg ha]
      rw [alookup_cons, if_neg ha] at hmem
      exact ih hmem

theorem alookup_dict_set {α : Type} (d : List (String × α)) (k k' : String)
    (v : α) :
    alookup k' (dict_set d k v) = if k' = k then some v else alookup k' d := by
  unfold dict_set
  by_cases hmem : (alookup k d).isSome
  · rw [if_pos hmem]
    by_cases hk : k' = k
    · subst hk
      rw [if_pos rfl]
      exact alookup_map_replace_mem v d hmem
    · rw [if_neg hk]
      exact alookup_map_replace_ne v hk d
  · rw [if_neg hmem, alookup_append]
    by_cases hk : k' = k
    · subst hk
      have hnone : alookup k' d = none := by
        cases h : alookup k' d
        · rfl
        · rw [h] at hmem
          exact absurd rfl hmem
      rw [hnone, if_pos rfl]
      simp [alookup_cons, Option.or]
    · rw [if_neg hk]
      have hone : alookup k' [(k, v)] = none := by
        rw [alookup_cons, if_neg (fun hc => hk hc.symm)]
        rfl
      rw [hone]
      cases alookup k' d <;> rfl

theorem alookup_dict_merge {α : Type} (d c : List (String × α))
    (hc : (c.map Prod.fst).Nodup) (k : String) :
    alookup k (dict_merge d c) = (alookup k c).or (alookup k d) := by
  induction c generalizing d with
  | nil => simp [dict_merge, alookup, Option.or]
  | cons p t ih =>
    obtain ⟨a, v⟩ := p
    simp only [List.map_cons, List.nodup_cons] at hc
    have step : dict_merge d ((a, v) :: t) = dict_merge (dict_set d a v) t := rfl
    rw [step, ih _ hc.2, alookup_cons]
    by_cases hk : a = k
    · subst hk
      have ht : alookup a t = none := alookup_not_mem hc.1
      rw [ht, alookup_dict_set, if_pos rfl, if_pos rfl]
      rfl
    · rw [if_neg hk, alookup_dict_set, if_neg (fun hc2 => hk hc2.symm)]

theorem alookup_foldl_dict_set_not_mem {α ι : Type} (key : ι → String)
    (val : ι → α) {k : String} :
    ∀ (l : List ι) (init : List (String × α)), k ∉ l.map key →
      alookup k (l.foldl (fun d i => dict_set d (key i) (val i)) init) =
        alookup k init := by
  intro l
  induction l with
  | nil => intro init _; rfl
  | cons x t ih =>
    intro init h
    simp only [List.map_cons, List.mem_cons, not_or] at h
    simp only [List.foldl_cons]
    rw [ih _ h.2, alookup_dict_set, if_neg h.1]

theorem alookup_foldl_dict_set_key_fn {α ι : Type} (key : ι → String)
    (g : String → α) :
    ∀ (l : List ι) (init : List (String × α)) (k : String), k ∈ l.map key →
      alookup k (l.foldl (fun d i => dict_set d (key i) (g (key i))) init) =
        some (g k) := by
  intro l
  induction l with
  | nil => intro _ _ h; cases h
  | cons y t ih =>
    intro init k hk
    simp only [List.foldl_cons]
    by_cases hkt : k ∈ t.map key
    · exact ih _ k hkt
    · have hky : k = key y := by
        simp only [List.map_cons, List.mem_cons] at hk
        rcases hk with h | h
        · exact h
        · exact absurd h hkt
      rw [alookup_foldl_dict_set_not_mem key _ t _ hkt, alookup_dict_set,
        if_pos hky, hky]

theorem alookup_foldl_dict_set_nodup {α ι : Type} (key : ι → String)
    (val : ι → α) {x : ι} :
    ∀ (l : List ι) (init : List (String × α)), (l.map key).Nodup → x ∈ l →
      alookup (key x)
          (l.foldl (fun d i => dict_set d (key i) (val i)) init) =
        some (val x) := by
  intro l
  induction l with
  | nil => intro _ _ h; cases h
  | cons y t ih =>
    intro init hnd hx
    simp only [List.map_cons, List.nodup_cons] at hnd
    simp only [List.foldl_cons]
    rcases List.mem_cons.mp hx with h | h
    · subst h
      rw [alookup_foldl_dict_set_not_mem key val t _ hnd.1, alookup_dict_set,
        if_pos rfl]
    · exact ih _ hnd.2 h

/-! ## String-accumulation lemmas -/

theorem str_foldl_shift {α : Type} (f : α → String) :
    ∀ (l : List α) (a b : String),
      l.foldl (fun acc x => acc ++ f x) (a ++ b) =
        a ++ l.foldl (fun acc x => acc ++ f x) b := by
  intro l
  induction l with
  | nil => intro a b; rfl
  | cons x t ih =>
    intro a b
    simp only [List.foldl_cons]
    rw [String.append_assoc, ih]

theorem str_foldl_eq {α : Type} (f : α → String) (l : List α) (init : String) :
    l.foldl (fun acc x => acc ++ f x) init =
      init ++ l.foldl (fun acc x => acc ++ f x) "" := by
  conv_lhs => rw [← String.append_empty init]
  exact str_foldl_shift f l init ""

theorem str_foldl_decomp {α : Type} (f : α → String) {x : α} {l : List α}
    (hx : x ∈ l) (init : String) :
    ∃ a b, l.foldl (fun acc y => acc ++ f y) init = a ++ (f x ++ b) := by
  obtain ⟨s, t, rfl⟩ := List.append_of_mem hx
  refine ⟨s.foldl (fun acc y => acc ++ f y) init,
    t.foldl (fun acc y => acc ++ f y) "", ?_⟩
  rw [List.foldl_append, List.foldl_cons, str_foldl_eq f t, String.append_assoc]

theorem str_append_ne_empty_left {s : String} (t : String) (h : s ≠ "") :
    s ++ t ≠ "" := by
  intro he
  apply h
  have hd := congrArg String.data he
  rw [String.data_append] at hd
  have hs : s.data = [] := (List.append_eq_nil.mp hd).1
  cases s with
  | mk d =>
    simp only at hs
    exact congrArg String.mk hs

/-! ## Version-order lemmas -/

theorem ver_cmp_self : ∀ a : List Nat, ver_cmp a a = .eq := by
  intro a
  induction a with
  | nil => rfl
  | cons x t ih => simp [ver_cmp, Nat.lt_irrefl, ih]

theorem ver_cmp_lt_swap : ∀ a b : List Nat, ver_cmp a b = .lt →
    ver_cmp b a = .gt := by
  intro a
  induction a with
  | nil =>
    intro b h
    cases b with
    | nil => simp [ver_cmp] at h
    | cons y t => simp [ver_cmp]
  | cons x s ih =>
    intro b h
    cases b with
    | nil => simp [ver_cmp] at h
    | cons y t =>
      simp only [ver_cmp] at h ⊢
      by_cases hxy : x < y
      · rw [if_pos hxy] at h
        rw [if_neg (Nat.lt_asymm hxy), if_pos hxy]
      · rw [if_neg hxy] at h
        by_cases hyx : y < x
        · rw [if_pos hyx] at h
          cases h
        · rw [if_neg hyx] at h
          rw [if_neg hyx, if_neg hxy]
          exact ih t h

theorem version_max_spec (cmv pmv : String) :
    ((if version_equal_or_greater cmv pmv then cmv else pmv) = cmv ∨
      (if version_equal_or_greater cmv pmv then cmv else pmv) = pmv) ∧
    version_equal_or_greater
      (if version_equal_or_greater cmv pmv then cmv else pmv) cmv = true ∧
    version_equal_or_greater
      (if version_equal_or_greater cmv pmv then cmv else pmv) pmv = true := by
  by_cases h : version_equal_or_greater cmv pmv = true
  · rw [if_pos h]
    refine ⟨Or.inl rfl, ?_, h⟩
    unfold version_equal_or_greater
    rw [ver_cmp_self]
  · rw [if_neg h]
    refine ⟨Or.inr rfl, ?_, ?_⟩
    · unfold version_equal_or_greater at h ⊢
      have hlt : ver_cmp (parse_dotted cmv) (parse_dotted pmv) = .lt := by
        revert h
        cases ver_cmp (parse_dotted cmv) (parse_dotted pmv) <;> simp
      rw [ver_cmp_lt_swap _ _ hlt]
    · unfold version_equal_or_greater
      rw [ver_cmp_self]

/-! ## Unfolding lemmas for `load_recipe` -/

theorem add_preprocessors_nil (r : RecipeDoc) : add_preprocessors [] r = r := rfl

theorem add_postprocessors_nil (r : RecipeDoc) : add_postprocessors [] r = r := rfl

theorem attach_trust_Process (tp : Option (TrustRecord × Option ParentVal))
    (r : RecipeDoc) : (attach_trust tp r).Process = r.Process := by
  cases tp with
  | none => rfl
  | some p =>
    obtain ⟨t, op⟩ := p
    cases op <;> rfl

theorem attach_trust_Input (tp : Option (TrustRecord × Option ParentVal))
    (r : RecipeDoc) : (attach_trust tp r).Input = r.Input := by
  cases tp with
  | none => rfl
  | some p =>
    obtain ⟨t, op⟩ := p
    cases op <;> rfl

theorem attach_trust_Description (tp : Option (TrustRecord × Option ParentVal))
    (r : RecipeDoc) : (attach_trust tp r).Description = r.Description := by
  cases tp with
  | none => rfl
  | some p =>
    obtain ⟨t, op⟩ := p
    cases op <;> rfl

theorem attach_trust_MinimumVersion
    (tp : Option (TrustRecord × Option ParentVal)) (r : RecipeDoc) :
    (attach_trust tp r).MinimumVersion = r.MinimumVersion := by
  cases tp with
  | none => rfl
  | some p =>
    obtain ⟨t, op⟩ := p
    cases op <;> rfl

theorem attach_trust_Identifier (tp : Option (TrustRecord × Option ParentVal))
    (r : RecipeDoc) : (attach_trust tp r).Identifier = r.Identifier := by
  cases tp with
  | none => rfl
  | some p =>
    obtain ⟨t, op⟩ := p
    cases op <;> rfl

theorem attach_trust_RECIPE_PATH
    (tp : Option (TrustRecord × Option ParentVal)) (r : RecipeDoc) :
    (attach_trust tp r).RECIPE_PATH = r.RECIPE_PATH := by
  cases tp with
  | none => rfl
  | some p =>
    obtain ⟨t, op⟩ := p
    cases op <;> rfl

theorem attach_trust_PARENT_RECIPES
    (tp : Option (TrustRecord × Option ParentVal)) (r : RecipeDoc) :
    (attach_trust tp r).PARENT_RECIPES = r.PARENT_RECIPES := by
  cases tp with
  | none => rfl
  | some p =>
    obtain ⟨t, op⟩ := p
    cases op <;> rfl

theorem set_name_Process (n : String) (r : RecipeDoc) :
    (set_name n r).Process = r.Process := rfl

theorem set_name_Input (n : String) (r : RecipeDoc) :
    (set_name n r).Input = r.Input := rfl

theorem set_name_Description (n : String) (r : RecipeDoc) :
    (set_name n r).Description = r.Description := rfl

theorem set_name_MinimumVersion (n : String) (r : RecipeDoc) :
    (set_name n r).MinimumVersion = r.MinimumVersion := rfl

theorem set_name_Identifier (n : String) (r : RecipeDoc) :
    (set_name n r).Identifier = r.Identifier := rfl

theorem set_name_ParentRecipe (n : String) (r : RecipeDoc) :
    (set_name n r).ParentRecipe = r.ParentRecipe := rfl

theorem set_name_ParentRecipeTrustInfo (n : String) (r : RecipeDoc) :
    (set_name n r).ParentRecipeTrustInfo = r.ParentRecipeTrustInfo := rfl

theorem merge_parent_child_Process (p c : RecipeDoc) (f : String) :
    (merge_parent_child p c f).Process =
      some (p.Process.getD [] ++ c.Process.getD []) := rfl

theorem merge_parent_child_Input (p c : RecipeDoc) (f : String) :
    (merge_parent_child p c f).Input =
      some (dict_merge (p.Input.getD []) (c.Input.getD [])) := rfl

theorem merge_parent_child_Description (p c : RecipeDoc) (f : String) :
    (merge_parent_child p c f).Description =
      some (match c.Description with
        | some dsc => dsc
        | none => p.Description.getD "") := rfl

theorem merge_parent_child_MinimumVersion (p c : RecipeDoc) (f : String) :
    (merge_parent_child p c f).MinimumVersion =
      some (if version_equal_or_greater (c.MinimumVersion.getD "0")
          (p.MinimumVersion.getD "0") then c.MinimumVersion.getD "0"
        else p.MinimumVersion.getD "0") := rfl

theorem merge_parent_child_Identifier (p c : RecipeDoc) (f : String) :
    (merge_parent_child p c f).Identifier = get_identifier c := rfl

theorem merge_parent_child_RECIPE_PATH (p c : RecipeDoc) (f : String) :
    (merge_parent_child p c f).RECIPE_PATH = some f := rfl

theorem merge_parent_child_ParentRecipe (p c : RecipeDoc) (f : String) :
    (merge_parent_child p c f).ParentRecipe = p.ParentRecipe := rfl

theorem merge_parent_child_ParentRecipeTrustInfo (p c : RecipeDoc)
    (f : String) :
    (merge_parent_child p c f).ParentRecipeTrustInfo =
      p.ParentRecipeTrustInfo := rfl

/-- One resolution step of `load_recipe` when the located document refers to a
parent whose load succeeds. -/
theorem load_recipe_merge_eq (env : Env) (fuel : Nat) (name : String)
    (od rd : List String) (sg : Bool) (pC : String) (C P : RecipeDoc)
    (pid : String)
    (hloc : locate_recipe env name od rd sg = some pC)
    (hread : env.readRecipe pC = some C)
    (href : refers_to_parent C = true)
    (hgid : get_identifier_from_override C = some pid)
    (hpar : load_recipe env fuel pid [] (rd ++ [env.dirname pC]) [] [] sg =
      some P) :
    load_recipe env (fuel + 1) name od rd [] [] sg =
      some (set_name name (attach_trust (trust_pair_of env C pC od)
        (merge_parent_child P C pC))) := by
  simp only [load_recipe, hloc, hread, href, hgid, hpar, if_true]
  rfl

/-- One resolution step of `load_recipe` when the located document does not
refer to a parent. -/
theorem load_recipe_base_eq (env : Env) (fuel : Nat) (name : String)
    (od rd : List String) (sg : Bool) (p : String) (D : RecipeDoc)
    (hloc : locate_recipe env name od rd sg = some p)
    (hread : env.readRecipe p = some D)
    (href : refers_to_parent D = false) :
    load_recipe env (fuel + 1) name od rd [] [] sg =
      some (set_name name (attach_trust (trust_pair_of env D p od)
        { D with RECIPE_PATH := some p })) := by
  simp only [load_recipe, hloc, hread, href, Bool.false_eq_true, if_false]
  rfl

/-! ## A small concrete world used to instantiate the theorems -/

/-- A standalone root recipe. -/
def docA : RecipeDoc :=
  { Identifier := some "id.A", Description := some "descA",
    MinimumVersion := some "1.0",
    Input := some [("k", "a"), ("x", "xa")],
    Process := some [{ processor := "ProcA" }] }

/-- A middle recipe referring to `docA`. -/
def docB : RecipeDoc :=
  { Identifier := some "id.B", MinimumVersion := some "2.3",
    Input := some [("k", "b"), ("y", "yb")],
    Process := some [{ processor := "ProcB" }],
    ParentRecipe := some (.idStr "id.A") }

/-- An override referring to `docB`, with an empty (but present) `Description`
and an embedded trust record. -/
def docC : RecipeDoc :=
  { Identifier := some "id.C", Description := some "",
    Input := some [("k", "c")],
    ParentRecipe := some (.idStr "id.B"),
    ParentRecipeTrustInfo := some
      { parent_recipes := [], non_core_processors := [] } }

/-- An override document in `/o` with a `ParentRecipe` but no embedded trust
info. -/
def docF : RecipeDoc :=
  { Identifier := some "id.F", Input := some [],
    ParentRecipe := some (.idStr "id.B") }

/-- The documents of the concrete world, by path. -/
def wread : String → Option RecipeDoc := fun p =>
  if p = "/o/C.recipe" then some docC
  else if p = "/o/F.recipe" then some docF
  else if p = "/r/B.recipe" then some docB
  else if p = "/r/A.recipe" then some docA
  else none

/-- The concrete world: an override directory `/o` holding `docC` and a recipe
directory `/r` holding `docA` and `docB`; git reports nothing. -/
def wEnv : Env :=
  { isFile := fun p => (wread p).isSome
    fileExists := fun _ => false
    readRecipe := wread
    dirname := fun p =>
      if p = "/o/C.recipe" then "/o"
      else if p = "/o/F.recipe" then "/o"
      else "/r"
    normalize := fun p => p
    expanduser := fun p => p
    relpath := fun p _ => p
    homeDir := "/home/u"
    subdirs := fun _ => []
    recipeFiles := fun d => if d = "/r" then ["/r/A.recipe", "/r/B.recipe"] else []
    github := fun _ => none
    sha256 := fun _ => "H"
    gitToplevel := fun _ => none
    gitRevList := fun _ _ => none
    gitDiff := fun _ _ _ => none
    gitLog := fun _ _ _ => none
    prefRecipeRepos := []
    prefRecipeSearchDirs := []
    coreProcessors := [] }

/-! ## C1 — three-level chain merge: `Process` order and `Input` overlay -/

/-- C1.  For every resolved chain A→B→C (C overrides B, B overrides A), the
merged recipe produced by `load_recipe` has `Process` equal to
`A.Process ++ B.Process ++ C.Process` in exactly that order, and `Input` equal
to A's Input overlaid with B's entries and then C's entries, where a
descendant's same-named key overwrites an ancestor's (last-wins) and all other
keys are retained. -/
theorem C1_chain_merge_order (env : Env) (fuel : Nat) (nameC : String)
    (od rd : List String) (sg : Bool)
    (pA pB pC : String) (A B C : RecipeDoc) (idA idB : String)
    (hlocC : locate_recipe env nameC od rd sg = some pC)
    (hreadC : env.readRecipe pC = some C)
    (hrefC : refers_to_parent C = true)
    (hgidC : get_identifier_from_override C = some idB)
    (hlocB : locate_recipe env idB [] (rd ++ [env.dirname pC]) sg = some pB)
    (hreadB : env.readRecipe pB = some B)
    (hrefB : refers_to_parent B = true)
    (hgidB : get_identifier_from_override B = some idA)
    (hlocA : locate_recipe env idA []
      ((rd ++ [env.dirname pC]) ++ [env.dirname pB]) sg = some pA)
    (hreadA : env.readRecipe pA = some A)
    (hrefA : refers_to_parent A = false)
    (hndB : ((B.Input.getD []).map Prod.fst).Nodup)
    (hndC : ((C.Input.getD []).map Prod.fst).Nodup) :
    (load_recipe env (fuel + 3) nameC od rd [] [] sg).map RecipeDoc.Process =
      some (some (A.Process.getD [] ++ B.Process.getD [] ++ C.Process.getD [])) ∧
    ∀ k, (load_recipe env (fuel + 3) nameC od rd [] [] sg).map
        (fun M => alookup k (M.Input.getD [])) =
      some ((alookup k (C.Input.getD [])).or
        ((alookup k (B.Input.getD [])).or (alookup k (A.Input.getD [])))) := by
  have hA : load_recipe env (fuel + 1) idA []
      ((rd ++ [env.dirname pC]) ++ [env.dirname pB]) [] [] sg =
      some (set_name idA (attach_trust
        (trust_pair_of env A pA []) { A with RECIPE_PATH := some pA })) :=
    load_recipe_base_eq env fuel idA [] _ sg pA A hlocA hreadA hrefA
  have hB : load_recipe env (fuel + 2) idB [] (rd ++ [env.dirname pC]) [] [] sg =
      some (set_name idB (attach_trust (trust_pair_of env B pB [])
        (merge_parent_child
          (set_name idA (attach_trust (trust_pair_of env A pA [])
            { A with RECIPE_PATH := some pA })) B pB))) :=
    load_recipe_merge_eq env (fuel + 1) idB [] _ sg pB B _ idA hlocB hreadB
      hrefB hgidB hA
  have hC : load_recipe env (fuel + 3) nameC od rd [] [] sg =
      some (set_name nameC (attach_trust (trust_pair_of env C pC od)
        (merge_parent_child
          (set_name idB (attach_trust (trust_pair_of env B pB [])
            (merge_parent_child
              (set_name idA (attach_trust (trust_pair_of env A pA [])
                { A with RECIPE_PATH := some pA })) B pB))) C pC))) :=
    load_recipe_merge_eq env (fuel + 2) nameC od rd sg pC C _ idB hlocC hreadC
      hrefC hgidC hB
  rw [hC]
  have hPa : (set_name idA (attach_trust (trust_pair_of env A pA [])
      { A with RECIPE_PATH := some pA })).Process = A.Process := by
    rw [set_name_Process, attach_trust_Process]
  have hPaI : (set_name idA (attach_trust (trust_pair_of env A pA [])
      { A with RECIPE_PATH := some pA })).Input = A.Input := by
    rw [set_name_Input, attach_trust_Input]
  have hPb : (set_name idB (attach_trust (trust_pair_of env B pB [])
      (merge_parent_child
        (set_name idA (attach_trust (trust_pair_of env A pA [])
          { A with RECIPE_PATH := some pA })) B pB))).Process =
      some (A.Process.getD [] ++ B.Process.getD []) := by
    rw [set_name_Process, attach_trust_Process, merge_parent_child_Process,
      hPa]
  have hPbI : (set_name idB (attach_trust (trust_pair_of env B pB [])
      (merge_parent_child
        (set_name idA (attach_trust (trust_pair_of env A pA [])
          { A with RECIPE_PATH := some pA })) B pB))).Input =
      some (dict_merge (A.Input.getD []) (B.Input.getD [])) := by
    rw [set_name_Input, attach_trust_Input, merge_parent_child_Input, hPaI]
  constructor
  · simp only [Option.map_some']
    rw [set_name_Process, attach_trust_Process, merge_parent_child_Process,
      hPb]
    simp only [Option.getD_some, List.append_assoc]
  · intro k
    simp only [Option.map_some']
    rw [set_name_Input, attach_trust_Input, merge_parent_child_Input, hPbI]
    simp only [Option.getD_some]
    rw [alookup_dict_merge _ _ hndC, alookup_dict_merge _ _ hndB]

/-- Witness for C1 at the concrete world: the chain `docA → docB → docC`. -/
theorem C1_chain_merge_order_witness :
    (load_recipe wEnv 3 "/o/C.recipe" ["/o"] ["/r"] [] [] false).map
        RecipeDoc.Process =
      some (some (docA.Process.getD [] ++ docB.Process.getD [] ++
        docC.Process.getD [])) ∧
    (load_recipe wEnv 3 "/o/C.recipe" ["/o"] ["/r"] [] [] false).map
        (fun M => alookup "k" (M.Input.getD [])) =
      some ((alookup "k" (docC.Input.getD [])).or
        ((alookup "k" (docB.Input.getD [])).or
          (alookup "k" (docA.Input.getD [])))) ∧
    (load_recipe wEnv 3 "/o/C.recipe" ["/o"] ["/r"] [] [] false).map
        (fun M => alookup "x" (M.Input.getD [])) =
      some ((alookup "x" (docC.Input.getD [])).or
        ((alookup "x" (docB.Input.getD [])).or
          (alookup "x" (docA.Input.getD [])))) := by
  have h := C1_chain_merge_order wEnv 0 "/o/C.recipe" ["/o"] ["/r"] false
    "/r/A.recipe" "/r/B.recipe" "/o/C.recipe" docA docB docC "id.A" "id.B"
    (by decide) (by decide) (by decide) (by decide) (by decide) (by decide)
    (by decide) (by decide) (by decide) (by decide) (by decide)
    (by decide) (by decide)
  exact ⟨h.1, h.2 "k", h.2 "x"⟩

/-! ## C3 — Description fallback -/

/-- The resolved form of `docA` produced by a parent load with no override
directories. -/
def docA_resolved : RecipeDoc :=
  set_name "id.A" (attach_trust (trust_pair_of wEnv docA "/r/A.recipe" [])
    { docA with RECIPE_PATH := some "/r/A.recipe" })

/-- C3 (as amended).  For every parent-child merge performed by `load_recipe`,
the merged `Description` equals the child's `Description` whenever the child
document carries the key — even when its value is the empty string — and falls
back to the resolved parent's `Description` (default `""`) only when the
child's key is absent. -/
theorem C3_description_fallback (env : Env) (fuel : Nat) (name : String)
    (od rd : List String) (sg : Bool) (pC : String) (C P : RecipeDoc)
    (pid : String)
    (hloc : locate_recipe env name od rd sg = some pC)
    (hread : env.readRecipe pC = some C)
    (href : refers_to_parent C = true)
    (hgid : get_identifier_from_override C = some pid)
    (hpar : load_recipe env fuel pid [] (rd ++ [env.dirname pC]) [] [] sg =
      some P) :
    (load_recipe env (fuel + 1) name od rd [] [] sg).map
        RecipeDoc.Description =
      some (some (match C.Description with
        | some dsc => dsc
        | none => P.Description.getD "")) := by
  rw [load_recipe_merge_eq env fuel name od rd sg pC C P pid hloc hread href
    hgid hpar, Option.map_some', set_name_Description, attach_trust_Description,
    merge_parent_child_Description]

/-- Witness for C3 (as amended): `docC` carries `Description` `""`, so the
merge keeps `""`. -/
theorem C3_description_fallback_witness :
    (load_recipe wEnv 3 "/o/C.recipe" ["/o"] ["/r"] [] [] false).map
        RecipeDoc.Description = some (some "") := by
  have h := C3_description_fallback wEnv 2 "/o/C.recipe" ["/o"] ["/r"] false
    "/o/C.recipe" docC
    (set_name "id.B" (attach_trust (trust_pair_of wEnv docB "/r/B.recipe" [])
      (merge_parent_child docA_resolved docB "/r/B.recipe")))
    "id.B" (by decide) (by decide) (by decide) (by decide) (by decide)
  exact h

/-- Counterexample to C3 as stated: `docC`'s `Description` is present but
empty, the resolved parent's `Description` is the non-empty `"descA"`, yet the
merged recipe keeps the empty string instead of falling back to the nearest
non-empty value along the chain. -/
theorem C3_description_empty_kept :
    docC.Description = some "" ∧
    docA.Description = some "descA" ∧ docB.Description = none ∧
    (load_recipe wEnv 3 "/o/C.recipe" ["/o"] ["/r"] [] [] false).map
        RecipeDoc.Description = some (some "") := by
  refine ⟨rfl, rfl, rfl, ?_⟩
  decide

/-! ## C4 — MinimumVersion merges to the dotted-version maximum -/

/-- C4.  For every parent-child merge performed by `load_recipe`, the merged
`MinimumVersion` (with `"0"` substituted for a missing value on either side)
is the dotted-version maximum of the resolved parent's and the child's values:
it is one of the two and dotted-compares at least both. -/
theorem C4_minimum_version_max (env : Env) (fuel : Nat) (name : String)
    (od rd : List String) (sg : Bool) (pC : String) (C P M : RecipeDoc)
    (pid : String) (mv : String)
    (hloc : locate_recipe env name od rd sg = some pC)
    (hread : env.readRecipe pC = some C)
    (href : refers_to_parent C = true)
    (hgid : get_identifier_from_override C = some pid)
    (hpar : load_recipe env fuel pid [] (rd ++ [env.dirname pC]) [] [] sg =
      some P)
    (hM : load_recipe env (fuel + 1) name od rd [] [] sg = some M)
    (hmv : M.MinimumVersion = some mv) :
    (mv = C.MinimumVersion.getD "0" ∨ mv = P.MinimumVersion.getD "0") ∧
    version_equal_or_greater mv (C.MinimumVersion.getD "0") = true ∧
    version_equal_or_greater mv (P.MinimumVersion.getD "0") = true := by
  rw [load_recipe_merge_eq env fuel name od rd sg pC C P pid hloc hread href
    hgid hpar] at hM
  have hMeq := Option.some.inj hM
  rw [← hMeq, set_name_MinimumVersion, attach_trust_MinimumVersion,
    merge_parent_child_MinimumVersion] at hmv
  have hmv2 := Option.some.inj hmv
  rw [← hmv2]
  exact version_max_spec (C.MinimumVersion.getD "0") (P.MinimumVersion.getD "0")

/-- A parent carrying `MinimumVersion` `"3.0"`. -/
def docP3 : RecipeDoc :=
  { Identifier := some "id.P3", MinimumVersion := some "3.0",
    Input := some [], Process := some [] }

/-- A child of `docP3` without a `MinimumVersion`. -/
def docD : RecipeDoc :=
  { Identifier := some "id.D", Input := some [],
    ParentRecipe := some (.idStr "id.P3") }

/-- A parent without a `MinimumVersion`. -/
def docP0 : RecipeDoc :=
  { Identifier := some "id.P0", Input := some [], Process := some [] }

/-- A child of `docP0` without a `MinimumVersion`. -/
def docE : RecipeDoc :=
  { Identifier := some "id.E", Input := some [],
    ParentRecipe := some (.idStr "id.P0") }

/-- The documents of the version-merge world, by path. -/
def vread : String → Option RecipeDoc := fun p =>
  if p = "/v/D.recipe" then some docD
  else if p = "/v/P3.recipe" then some docP3
  else if p = "/v/E.recipe" then some docE
  else if p = "/v/P0.recipe" then some docP0
  else none

/-- A world holding the version-merge documents in `/v`. -/
def vEnv : Env :=
  { wEnv with
    isFile := fun p => (vread p).isSome
    readRecipe := vread
    dirname := fun _ => "/v"
    recipeFiles := fun d =>
      if d = "/v" then
        ["/v/D.recipe", "/v/P3.recipe", "/v/E.recipe", "/v/P0.recipe"]
      else [] }

/-- Witness for C4: the spec's three cases — parent `"1.0"` with child
`"2.3"` merges to `"2.3"`, parent `"3.0"` with child absent merges to
`"3.0"`, both absent merges to `"0"` — plus the max property at the first
case by applying the theorem. -/
theorem C4_minimum_version_max_witness :
    (load_recipe wEnv 2 "/r/B.recipe" [] ["/r"] [] [] false).map
        RecipeDoc.MinimumVersion = some (some "2.3") ∧
    (load_recipe vEnv 2 "/v/D.recipe" [] ["/v"] [] [] false).map
        RecipeDoc.MinimumVersion = some (some "3.0") ∧
    (load_recipe vEnv 2 "/v/E.recipe" [] ["/v"] [] [] false).map
        RecipeDoc.MinimumVersion = some (some "0") ∧
    (("2.3" = docB.MinimumVersion.getD "0" ∨
        "2.3" = docA_resolved.MinimumVersion.getD "0") ∧
      version_equal_or_greater "2.3" (docB.MinimumVersion.getD "0") = true ∧
      version_equal_or_greater "2.3" (docA_resolved.MinimumVersion.getD "0") =
        true) := by
  refine ⟨by decide, by decide, by decide, ?_⟩
  exact C4_minimum_version_max wEnv 1 "/r/B.recipe" [] ["/r"] false
    "/r/B.recipe" docB docA_resolved
    (set_name "/r/B.recipe" (attach_trust
      (trust_pair_of wEnv docB "/r/B.recipe" [])
      (merge_parent_child docA_resolved docB "/r/B.recipe")))
    "id.A" "2.3" (by decide) (by decide) (by decide) (by decide) (by decide)
    (by decide) (by decide)

/-! ## C9 — override trust info re-attached, foreign trust info stripped -/

theorem attach_trust_some_trust (t : TrustRecord) (op : Option ParentVal)
    (r : RecipeDoc) :
    (attach_trust (some (t, op)) r).ParentRecipeTrustInfo = some t := by
  cases op <;> rfl

theorem attach_trust_some_parent (t : TrustRecord) (pv : ParentVal)
    (r : RecipeDoc) :
    (attach_trust (some (t, some pv)) r).ParentRecipe = some pv := rfl

theorem attach_trust_none_trust (r : RecipeDoc) :
    (attach_trust none r).ParentRecipeTrustInfo = none := rfl

/-- C9 (as amended).  For a merge performed by `load_recipe`: when the located
document lies inside an override directory *and* embeds a
`ParentRecipeTrustInfo` record, that record and the document's `ParentRecipe`
identifier are re-attached verbatim after the merge; when the located document
is not inside an override directory, the final merged recipe carries no
`ParentRecipeTrustInfo`, even when an ancestor embedded one.  (Without
embedded trust info nothing is re-attached, even for an override — see the
counterexample.) -/
theorem C9_trust_reattach_and_strip (env : Env) (fuel : Nat) (name : String)
    (od rd : List String) (sg : Bool) (pC : String) (C P : RecipeDoc)
    (pid : String)
    (hloc : locate_recipe env name od rd sg = some pC)
    (hread : env.readRecipe pC = some C)
    (href : refers_to_parent C = true)
    (hgid : get_identifier_from_override C = some pid)
    (hpar : load_recipe env fuel pid [] (rd ++ [env.dirname pC]) [] [] sg =
      some P) :
    (recipe_in_override_dir env pC od = true →
      ∀ T s, C.ParentRecipeTrustInfo = some T →
        C.ParentRecipe = some (.idStr s) → s ≠ "" →
        (load_recipe env (fuel + 1) name od rd [] [] sg).map
            RecipeDoc.ParentRecipeTrustInfo = some (some T) ∧
        (load_recipe env (fuel + 1) name od rd [] [] sg).map
            RecipeDoc.ParentRecipe = some (some (.idStr s))) ∧
    (recipe_in_override_dir env pC od = false →
      (load_recipe env (fuel + 1) name od rd [] [] sg).map
          RecipeDoc.ParentRecipeTrustInfo = some none) := by
  have hload := load_recipe_merge_eq env fuel name od rd sg pC C P pid hloc
    hread href hgid hpar
  constructor
  · intro hov T s hT hPR hs
    have htp : trust_pair_of env C pC od = some (T, some (.idStr s)) := by
      unfold trust_pair_of
      rw [if_pos hov, hT]
      have hpv : parent_val C = some (.idStr s) := by
        unfold parent_val parent_val_truthy
        rw [hPR]
        simp [hs]
      rw [hpv]
    constructor
    · rw [hload, Option.map_some', set_name_ParentRecipeTrustInfo, htp,
        attach_trust_some_trust]
    · rw [hload, Option.map_some', set_name_ParentRecipe, htp,
        attach_trust_some_parent]
  · intro hov
    have htp : trust_pair_of env C pC od = none := by
      unfold trust_pair_of
      rw [hov]
      simp
    rw [hload, Option.map_some', set_name_ParentRecipeTrustInfo, htp,
      attach_trust_none_trust]

/-- Witness for C9: `docC` (an override in `/o` with trust info) keeps its
trust record and parent identifier; loading `docB` directly (not in an
override directory) strips the trust field. -/
theorem C9_trust_reattach_and_strip_witness :
    ((load_recipe wEnv 3 "/o/C.recipe" ["/o"] ["/r"] [] [] false).map
        RecipeDoc.ParentRecipeTrustInfo =
      some (some { parent_recipes := [], non_core_processors := [] }) ∧
    (load_recipe wEnv 3 "/o/C.recipe" ["/o"] ["/r"] [] [] false).map
        RecipeDoc.ParentRecipe = some (some (.idStr "id.B"))) ∧
    (load_recipe wEnv 2 "/r/B.recipe" ["/o"] ["/r"] [] [] false).map
        RecipeDoc.ParentRecipeTrustInfo = some none := by
  constructor
  · exact (C9_trust_reattach_and_strip wEnv 2 "/o/C.recipe" ["/o"] ["/r"]
      false "/o/C.recipe" docC
      (set_name "id.B" (attach_trust (trust_pair_of wEnv docB "/r/B.recipe" [])
        (merge_parent_child docA_resolved docB "/r/B.recipe")))
      "id.B" (by decide) (by decide) (by decide) (by decide) (by decide)).1
      (by decide) { parent_recipes := [], non_core_processors := [] } "id.B"
      (by decide) (by decide) (by decide)
  · exact (C9_trust_reattach_and_strip wEnv 1 "/r/B.recipe" ["/o"] ["/r"]
      false "/r/B.recipe" docB docA_resolved
      "id.A" (by decide) (by decide) (by decide) (by decide) (by decide)).2
      (by decide)

/-- Counterexample to C9 as stated: `docF` lies in the override directory and
carries `ParentRecipe` `"id.B"`, but because it embeds no
`ParentRecipeTrustInfo` the merge does not re-attach its `ParentRecipe` — the
final merged recipe has none, not the verbatim field. -/
theorem C9_parent_dropped_without_trust :
    docF.ParentRecipe = some (.idStr "id.B") ∧
    recipe_in_override_dir wEnv "/o/F.recipe" ["/o"] = true ∧
    docF.ParentRecipeTrustInfo = none ∧
    (load_recipe wEnv 3 "/o/F.recipe" ["/o"] ["/r"] [] [] false).map
        RecipeDoc.ParentRecipe = some none := by
  exact ⟨rfl, by decide, rfl, by decide⟩

/-! ## C7 — locate-by-path bypass -/

/-- C7.  For every string name that is a path to an existing file containing a
valid recipe document, `locate_recipe` returns that path unchanged for *every*
choice of override and recipe search directories (so the directories are never
consulted), even when a recipe with the same name exists somewhere in them. -/
theorem C7_locate_path_bypass (env : Env) (name : String)
    (hfile : env.isFile name = true)
    (hvalid : valid_recipe_file env name = true) :
    ∀ override_dirs recipe_dirs sg,
      locate_recipe env name override_dirs recipe_dirs sg = some name := by
  intro od rd sg
  unfold locate_recipe
  rw [hfile, hvalid]
  rfl

/-- Witness for C7: locating `docB` by its path returns it unchanged, with
the search directories containing the very same recipe. -/
theorem C7_locate_path_bypass_witness :
    locate_recipe wEnv "/r/B.recipe" ["/o"] ["/r"] true =
      some "/r/B.recipe" := by
  exact C7_locate_path_bypass wEnv "/r/B.recipe" (by decide) (by decide)
    ["/o"] ["/r"] true

/-! ## C10 — identifier search takes precedence over filename search -/

theorem first_some_sound {α β : Type} (f : α → Option β) :
    ∀ (l : List α) (b : β), first_some f l = some b → ∃ x ∈ l, f x = some b := by
  intro l
  induction l with
  | nil => intro b h; cases h
  | cons x t ih =>
    intro b h
    unfold first_some at h
    cases hfx : f x with
    | some c =>
      rw [hfx] at h
      exact ⟨x, List.mem_cons_self x t, hfx.trans h⟩
    | none =>
      rw [hfx] at h
      obtain ⟨y, hy, hfy⟩ := ih b h
      exact ⟨y, List.mem_cons_of_mem x hy, hfy⟩

theorem first_some_isSome_of_mem {α β : Type} (f : α → Option β) :
    ∀ (l : List α) (x : α), x ∈ l → (f x).isSome = true →
      (first_some f l).isSome = true := by
  intro l
  induction l with
  | nil => intro x h; cases h
  | cons y t ih =>
    intro x hx hfx
    unfold first_some
    cases hfy : f y with
    | some c => rfl
    | none =>
      rcases List.mem_cons.mp hx with h | h
      · subst h
        rw [hfy] at hfx
        cases hfx
      · exact ih x h hfx

/-- C10.  Identifier matching takes precedence over filename matching across
the entire search path: whatever `find_recipe_by_identifier` returns is what
`find_recipe` returns (and that file declares the requested identifier); if
any directory contributes a candidate declaring the key as its identifier, the
identifier search succeeds; and only when identifier search fails over all
directories does `find_recipe` fall back to `find_recipe_by_name`. -/
theorem C10_identifier_precedence (env : Env) (key : String)
    (dirs : List String) :
    (∀ f, find_recipe_by_identifier env key dirs = some f →
      find_recipe env key dirs = some f ∧
      ∃ doc, env.readRecipe f = some doc ∧ get_identifier doc = some key) ∧
    ((∃ d ∈ dirs, ∃ f ∈ identifier_candidates env d,
        ∃ doc, env.readRecipe f = some doc ∧ get_identifier doc = some key) →
      ∃ g, find_recipe env key dirs = some g ∧
        ∃ doc, env.readRecipe g = some doc ∧ get_identifier doc = some key) ∧
    (find_recipe_by_identifier env key dirs = none →
      find_recipe env key dirs = find_recipe_by_name env key dirs) := by
  have sound : ∀ f, find_recipe_by_identifier env key dirs = some f →
      ∃ doc, env.readRecipe f = some doc ∧ get_identifier doc = some key := by
    intro f h
    obtain ⟨d, _, hfd⟩ := first_some_sound _ dirs f h
    have hpred := List.find?_some hfd
    cases hread : env.readRecipe f with
    | none => rw [hread] at hpred; cases hpred
    | some doc =>
      rw [hread] at hpred
      exact ⟨doc, rfl, by simpa using hpred⟩
  refine ⟨?_, ?_, ?_⟩
  · intro f h
    refine ⟨?_, sound f h⟩
    unfold find_recipe
    rw [h]
  · intro ⟨d, hd, f, hf, doc, hread, hid⟩
    have hpred : (match env.readRecipe f with
        | some doc => get_identifier doc == some key
        | none => false) = true := by
      rw [hread]
      simpa using hid
    have hds : ((identifier_candidates env d).find?
        (fun f => match env.readRecipe f with
          | some doc => get_identifier doc == some key
          | none => false)).isSome = true :=
      List.find?_isSome.mpr ⟨f, hf, hpred⟩
    have hsome := first_some_isSome_of_mem
      (fun d => (identifier_candidates env d).find?
        (fun f => match env.readRecipe f with
          | some doc => get_identifier doc == some key
          | none => false))
      dirs d hd hds
    cases hfs : find_recipe_by_identifier env key dirs with
    | none =>
      unfold find_recipe_by_identifier at hfs
      rw [hfs] at hsome
      cases hsome
    | some g =>
      refine ⟨g, ?_, sound g hfs⟩
      unfold find_recipe
      rw [hfs]
  · intro h
    unfold find_recipe
    rw [h]

/-- A valid recipe named `Foo` but declaring a different identifier. -/
def docFooName : RecipeDoc :=
  { Identifier := some "other", Input := some [], Process := some [] }

/-- A valid recipe named `Bar` but declaring identifier `Foo`. -/
def docBarId : RecipeDoc :=
  { Identifier := some "Foo", Input := some [], Process := some [] }

/-- A world where the first directory holds a filename match for `Foo` and the
second directory holds an identifier match. -/
def fEnv : Env :=
  { wEnv with
    isFile := fun p => p = "/d1/Foo.recipe" || p = "/d2/Bar.recipe"
    readRecipe := fun p =>
      if p = "/d1/Foo.recipe" then some docFooName
      else if p = "/d2/Bar.recipe" then some docBarId
      else none
    recipeFiles := fun d =>
      if d = "/d1" then ["/d1/Foo.recipe"]
      else if d = "/d2" then ["/d2/Bar.recipe"]
      else [] }

/-- Witness for C10: the identifier match in the later directory `/d2` beats
the filename match in the earlier directory `/d1`. -/
theorem C10_identifier_precedence_witness :
    find_recipe_by_name fEnv "Foo" ["/d1", "/d2"] = some "/d1/Foo.recipe" ∧
    find_recipe_by_identifier fEnv "Foo" ["/d1", "/d2"] =
      some "/d2/Bar.recipe" ∧
    find_recipe fEnv "Foo" ["/d1", "/d2"] = some "/d2/Bar.recipe" ∧
    get_identifier docBarId = some "Foo" := by
  refine ⟨by decide, by decide, ?_, by decide⟩
  exact ((C10_identifier_precedence fEnv "Foo" ["/d1", "/d2"]).1
    "/d2/Bar.recipe" (by decide)).1

/-! ## C2 — trust info under an external repository path -/

/-- The fixed message of the external-repo trust error (source lines
1554–1557). -/
def external_repo_error_msg : String :=
  "Recipe from external repo: embedded trust info will be ignored. " ++
    "Audit the recipe, then create an override to trust it."

/-- C2 (as amended).  For every recipe whose `RECIPE_PATH` lies under a
registered external repository directory, embeds a `ParentRecipeTrustInfo`
record, *and lies inside an override directory* (so that the
trust-in-non-override warning does not fire first), `verify_parent_trust`
raises `TrustVerificationError` — before any trust record is computed or
compared, hence even when the freshly computed record would be byte-identical
to the embedded one. -/
theorem C2_external_repo_error (env : Env) (fuel : Nat) (recipe : RecipeDoc)
    (od sd : List String) (verbosity : Nat)
    (ht : trust_truthy recipe.ParentRecipeTrustInfo = true)
    (hov : recipe_in_override_dir env (recipe.RECIPE_PATH.getD "") od = true)
    (hext : recipe_from_external_repo env (recipe.RECIPE_PATH.getD "") = true) :
    verify_parent_trust env fuel recipe od sd verbosity =
      .error external_repo_error_msg := by
  simp only [verify_parent_trust, ht, hov, hext, Bool.not_true,
    Bool.and_false, Bool.false_eq_true, if_false, Bool.true_and,
    Bool.not_false, if_true]
  rfl

/-- A recipe document as merged from an override stored inside a registered
external repository that is also covered by an override directory. -/
def yRecipe : RecipeDoc :=
  { Identifier := some "id.Y", Input := some [], Process := some [],
    ParentRecipe := some (.idStr "id.B"),
    ParentRecipeTrustInfo := some
      { parent_recipes := [], non_core_processors := [] },
    RECIPE_PATH := some "/a/b/Y.recipe" }

/-- A world whose registered external repositories include `/a/b`. -/
def yEnv : Env := { wEnv with prefRecipeRepos := ["/a/b"] }

/-- Witness for C2 (as amended): `/a/b/Y.recipe` is inside the override
directory `/a` and under the registered repo `/a/b`. -/
theorem C2_external_repo_error_witness :
    verify_parent_trust yEnv 1 yRecipe ["/a"] [] 0 =
      .error external_repo_error_msg := by
  exact C2_external_repo_error yEnv 1 yRecipe ["/a"] [] 0 (by decide)
    (by decide) (by decide)

/-- Counterexample to C2 as stated: a recipe under a registered external repo
path that is *not* inside any override directory makes `verify_parent_trust`
raise the non-override trust *warning* — not `TrustVerificationError` — because
the warning check runs first. -/
theorem C2_warning_preempts_external_repo_error :
    recipe_from_external_repo yEnv
      (yRecipe.RECIPE_PATH.getD "") = true ∧
    trust_truthy yRecipe.ParentRecipeTrustInfo = true ∧
    verify_parent_trust yEnv 1 yRecipe ["/overrides"] [] 0 =
      .warning "Trust information in non-override recipe." := by
  refine ⟨by decide, by decide, by decide⟩

/-! ## C6 — `git_hash` presence in trust records -/

/-- The three VCS steps of `get_git_commit_hash` all succeed with a usable
result: a working-copy root is found, `rev-list` names a (non-empty) latest
commit, and the diff between that commit and the on-disk content runs and is
empty after stripping trailing newlines. -/
def git_steps_ok (env : Env) (p : String) : Bool :=
  match env.gitToplevel (env.dirname p) with
  | none => false
  | some top_raw =>
    let top := rstrip_nl top_raw
    let rel := env.relpath p top
    match env.gitRevList top rel with
    | none => false
    | some out =>
      let h := rstrip_nl out
      match env.gitDiff h rel top with
      | none => false
      | some d => rstrip_nl d == "" && !(h == "")

theorem truthy_git_isSome (env : Env) (p : String) :
    (truthy_hash (get_git_commit_hash env p)).isSome = git_steps_ok env p := by
  unfold get_git_commit_hash git_steps_ok
  cases env.gitToplevel (env.dirname p) with
  | none => rfl
  | some top_raw =>
    show (truthy_hash (match env.gitRevList (rstrip_nl top_raw)
          (env.relpath p (rstrip_nl top_raw)) with
        | none => none
        | some out =>
          match env.gitDiff (rstrip_nl out)
              (env.relpath p (rstrip_nl top_raw)) (rstrip_nl top_raw) with
          | none => none
          | some d =>
            if (rstrip_nl d == "") = true then some (rstrip_nl out)
            else none)).isSome =
      (match env.gitRevList (rstrip_nl top_raw)
          (env.relpath p (rstrip_nl top_raw)) with
        | none => false
        | some out =>
          match env.gitDiff (rstrip_nl out)
              (env.relpath p (rstrip_nl top_raw)) (rstrip_nl top_raw) with
          | none => false
          | some d => rstrip_nl d == "" && !(rstrip_nl out == ""))
    cases env.gitRevList (rstrip_nl top_raw)
        (env.relpath p (rstrip_nl top_raw)) with
    | none => rfl
    | some out =>
      show (truthy_hash (match env.gitDiff (rstrip_nl out)
            (env.relpath p (rstrip_nl top_raw)) (rstrip_nl top_raw) with
          | none => none
          | some d =>
            if (rstrip_nl d == "") = true then some (rstrip_nl out)
            else none)).isSome =
        (match env.gitDiff (rstrip_nl out)
            (env.relpath p (rstrip_nl top_raw)) (rstrip_nl top_raw) with
          | none => false
          | some d => rstrip_nl d == "" && !(rstrip_nl out == ""))
      cases env.gitDiff (rstrip_nl out) (env.relpath p (rstrip_nl top_raw))
          (rstrip_nl top_raw) with
      | none => rfl
      | some d =>
        show (truthy_hash (if (rstrip_nl d == "") = true
            then some (rstrip_nl out) else none)).isSome =
          (rstrip_nl d == "" && !(rstrip_nl out == ""))
        by_cases hd : rstrip_nl d == ""
        · by_cases hh : rstrip_nl out == ""
          · simp [truthy_hash, hd, hh]
          · simp [truthy_hash, hd, hh]
        · simp [truthy_hash, hd]

theorem mk_parent_entry_git (env : Env) (fuel : Nat) (sd : List String)
    (p : String) :
    (mk_parent_entry env fuel sd p).2.git_hash =
      truthy_hash (get_git_commit_hash env p) := rfl

theorem mk_proc_entry_git_found (env : Env) (r : RecipeDoc) (pr pp : String)
    (h : find_processor_path env pr (some r) = some pp) :
    (mk_proc_entry env r pr).git_hash =
      truthy_hash (get_git_commit_hash env pp) := by
  unfold mk_proc_entry
  rw [h]

theorem mk_proc_entry_git_missing (env : Env) (r : RecipeDoc) (pr : String)
    (h : find_processor_path env pr (some r) = none) :
    (mk_proc_entry env r pr).git_hash = none := by
  unfold mk_proc_entry
  rw [h]

/-- C6.  In a trust record computed by `get_trust_info`: every chain path has
an entry whose `git_hash` is present exactly when every VCS step succeeds
(working-copy root found, a latest commit found) and the diff against the
on-disk content is empty; every non-core processor has an entry whose
`git_hash` obeys the same rule for its located file, and is absent when the
processor file cannot be located — a VCS failure or non-empty diff only omits
the hash, it never removes the entry or fails the computation. -/
theorem C6_git_hash_iff (env : Env) (fuel : Nat) (recipe : RecipeDoc)
    (sd : List String)
    (hnd : (((recipe.PARENT_RECIPES.getD [] ++ [recipe.RECIPE_PATH.getD ""]).map
      (fun p => (mk_parent_entry env fuel sd p).1))).Nodup) :
    (∀ p, p ∈ recipe.PARENT_RECIPES.getD [] ++ [recipe.RECIPE_PATH.getD ""] →
      (alookup (mk_parent_entry env fuel sd p).1
          (get_trust_info env fuel recipe sd).parent_recipes).map
        (fun e => e.git_hash.isSome) = some (git_steps_ok env p)) ∧
    (∀ pr, pr ∈ ((recipe.Process.getD []).map Step.processor).filter
        (fun q => !(env.coreProcessors.contains q)) →
      (∀ pp, find_processor_path env pr (some recipe) = some pp →
        (alookup pr (get_trust_info env fuel recipe sd).non_core_processors).map
          (fun e => e.git_hash.isSome) = some (git_steps_ok env pp)) ∧
      (find_processor_path env pr (some recipe) = none →
        (alookup pr (get_trust_info env fuel recipe sd).non_core_processors).map
          (fun e => e.git_hash) = some none)) := by
  constructor
  · intro p hp
    have hl : alookup (mk_parent_entry env fuel sd p).1
        (get_trust_info env fuel recipe sd).parent_recipes =
        some (mk_parent_entry env fuel sd p).2 :=
      alookup_foldl_dict_set_nodup
        (fun q => (mk_parent_entry env fuel sd q).1)
        (fun q => (mk_parent_entry env fuel sd q).2) _ [] hnd hp
    rw [hl, Option.map_some', mk_parent_entry_git, truthy_git_isSome]
  · intro pr hpr
    have hl : alookup pr
        (get_trust_info env fuel recipe sd).non_core_processors =
        some (mk_proc_entry env recipe pr) := by
      have := alookup_foldl_dict_set_key_fn (fun q => q)
        (fun q => mk_proc_entry env recipe q)
        (((recipe.Process.getD []).map Step.processor).filter
          (fun q => !(env.coreProcessors.contains q))) [] pr
        (by simpa using hpr)
      exact this
    constructor
    · intro pp hpp
      rw [hl, Option.map_some', mk_proc_entry_git_found env recipe pr pp hpp,
        truthy_git_isSome]
    · intro hmiss
      rw [hl, Option.map_some', mk_proc_entry_git_missing env recipe pr hmiss]

/-- A resolved recipe whose trust info we compute in the git world: one
parent `/g/P.recipe` plus itself, one non-core processor with a file and one
without. -/
def gRecipe : RecipeDoc :=
  { Identifier := some "id.R", Input := some [],
    Process := some [{ processor := "GProc" }, { processor := "NoProc" }],
    RECIPE_PATH := some "/g/R.recipe",
    PARENT_RECIPES := some ["/g/P.recipe"] }

/-- The standalone parent document of the git world. -/
def docGP : RecipeDoc :=
  { Identifier := some "id.P", Input := some [], Process := some [] }

/-- The standalone self document of the git world. -/
def docGR : RecipeDoc :=
  { Identifier := some "id.R", Input := some [], Process := some [] }

/-- A world with a git checkout at `/g`: the parent file is clean at commit
`abc` (its diff is empty), while the recipe's own file has a non-empty diff,
and `/g/GProc.py` is a clean processor file at commit `ghh`. -/
def gEnv : Env :=
  { wEnv with
    isFile := fun p =>
      p = "/g/P.recipe" || p = "/g/R.recipe" || p = "/g/GProc.py"
    fileExists := fun p => p = "/g/GProc.py"
    readRecipe := fun p =>
      if p = "/g/P.recipe" then some docGP
      else if p = "/g/R.recipe" then some docGR
      else none
    dirname := fun _ => "/g"
    recipeFiles := fun _ => []
    gitToplevel := fun d => if d = "/g" then some "/g\n" else none
    gitRevList := fun _ rel =>
      if rel = "/g/P.recipe" then some "abc\n"
      else if rel = "/g/R.recipe" then some "def\n"
      else if rel = "/g/GProc.py" then some "ghh\n"
      else none
    gitDiff := fun _ rel _ =>
      if rel = "/g/R.recipe" then some "DIFFOUT" else some "\n" }

/-- Witness for C6 in the git world: the clean parent gets a `git_hash`, the
dirty self entry does not, the located processor gets one, and the missing
processor's entry carries none. -/
theorem C6_git_hash_iff_witness :
    ((alookup (mk_parent_entry gEnv 1 [] "/g/P.recipe").1
        (get_trust_info gEnv 1 gRecipe []).parent_recipes).map
      (fun e => e.git_hash.isSome) = some (git_steps_ok gEnv "/g/P.recipe")) ∧
    ((alookup (mk_parent_entry gEnv 1 [] "/g/R.recipe").1
        (get_trust_info gEnv 1 gRecipe []).parent_recipes).map
      (fun e => e.git_hash.isSome) = some (git_steps_ok gEnv "/g/R.recipe")) ∧
    ((alookup "GProc" (get_trust_info gEnv 1 gRecipe []).non_core_processors).map
      (fun e => e.git_hash.isSome) = some (git_steps_ok gEnv "/g/GProc.py")) ∧
    ((alookup "NoProc" (get_trust_info gEnv 1 gRecipe []).non_core_processors).map
      (fun e => e.git_hash) = some none) ∧
    git_steps_ok gEnv "/g/P.recipe" = true ∧
    git_steps_ok gEnv "/g/R.recipe" = false ∧
    git_steps_ok gEnv "/g/GProc.py" = true := by
  have h := C6_git_hash_iff gEnv 1 gRecipe [] (by decide)
  refine ⟨h.1 "/g/P.recipe" (by decide), h.1 "/g/R.recipe" (by decide),
    ?_, ?_, by decide, by decide, by decide⟩
  · exact (h.2 "GProc" (by decide)).1 "/g/GProc.py" (by decide)
  · exact (h.2 "NoProc" (by decide)).2 (by decide)

/-! ## C8 — determinism of `get_trust_info` over unchanged inputs -/

/-- C8.  `get_trust_info` is deterministic over unchanged inputs: two
computations for the same merged recipe against worlds that agree on every
observation — the same file bytes to hash, the same documents, the same git
responses, the same preferences (no file mutated in between) — produce
identical trust records. -/
theorem C8_trust_info_deterministic (env1 env2 : Env) (fuel : Nat)
    (recipe : RecipeDoc) (sd : List String)
    (hIsFile : ∀ p, env1.isFile p = env2.isFile p)
    (hFileExists : ∀ p, env1.fileExists p = env2.fileExists p)
    (hRead : ∀ p, env1.readRecipe p = env2.readRecipe p)
    (hDirname : ∀ p, env1.dirname p = env2.dirname p)
    (hNormalize : ∀ p, env1.normalize p = env2.normalize p)
    (hExpand : ∀ p, env1.expanduser p = env2.expanduser p)
    (hRelpath : ∀ p q, env1.relpath p q = env2.relpath p q)
    (hHome : env1.homeDir = env2.homeDir)
    (hSubdirs : ∀ p, env1.subdirs p = env2.subdirs p)
    (hRecipeFiles : ∀ p, env1.recipeFiles p = env2.recipeFiles p)
    (hGithub : ∀ p, env1.github p = env2.github p)
    (hSha : ∀ p, env1.sha256 p = env2.sha256 p)
    (hTop : ∀ p, env1.gitToplevel p = env2.gitToplevel p)
    (hRev : ∀ p q, env1.gitRevList p q = env2.gitRevList p q)
    (hDiff : ∀ p q r, env1.gitDiff p q r = env2.gitDiff p q r)
    (hLog : ∀ p q r, env1.gitLog p q r = env2.gitLog p q r)
    (hRepos : env1.prefRecipeRepos = env2.prefRecipeRepos)
    (hSearch : env1.prefRecipeSearchDirs = env2.prefRecipeSearchDirs)
    (hCore : env1.coreProcessors = env2.coreProcessors) :
    get_trust_info env1 fuel recipe sd = get_trust_info env2 fuel recipe sd := by
  have he : env1 = env2 := by
    obtain ⟨a1, a2, a3, a4, a5, a6, a7, a8, a9, a10, a11, a12, a13, a14, a15,
      a16, a17, a18, a19⟩ := env1
    obtain ⟨b1, b2, b3, b4, b5, b6, b7, b8, b9, b10, b11, b12, b13, b14, b15,
      b16, b17, b18, b19⟩ := env2
    have e1 : a1 = b1 := funext hIsFile
    have e2 : a2 = b2 := funext hFileExists
    have e3 : a3 = b3 := funext hRead
    have e4 : a4 = b4 := funext hDirname
    have e5 : a5 = b5 := funext hNormalize
    have e6 : a6 = b6 := funext hExpand
    have e7 : a7 = b7 := funext (fun p => funext (hRelpath p))
    have e8 : a8 = b8 := hHome
    have e9 : a9 = b9 := funext hSubdirs
    have e10 : a10 = b10 := funext hRecipeFiles
    have e11 : a11 = b11 := funext hGithub
    have e12 : a12 = b12 := funext hSha
    have e13 : a13 = b13 := funext hTop
    have e14 : a14 = b14 := funext (fun p => funext (hRev p))
    have e15 : a15 = b15 :=
      funext (fun p => funext (fun q => funext (hDiff p q)))
    have e16 : a16 = b16 :=
      funext (fun p => funext (fun q => funext (hLog p q)))
    have e17 : a17 = b17 := hRepos
    have e18 : a18 = b18 := hSearch
    have e19 : a19 = b19 := hCore
    subst e1 e2 e3 e4 e5 e6 e7 e8 e9 e10 e11 e12 e13 e14 e15 e16 e17 e18 e19
    rfl
  rw [he]

/-- Witness for C8: two computations of the trust record for `gRecipe` in
immediate succession agree. -/
theorem C8_trust_info_deterministic_witness :
    get_trust_info gEnv 1 gRecipe [] = get_trust_info gEnv 1 gRecipe [] :=
  C8_trust_info_deterministic gEnv gEnv 1 gRecipe []
    (fun _ => rfl) (fun _ => rfl) (fun _ => rfl) (fun _ => rfl) (fun _ => rfl)
    (fun _ => rfl) (fun _ _ => rfl) rfl (fun _ => rfl) (fun _ => rfl)
    (fun _ => rfl) (fun _ => rfl) (fun _ => rfl) (fun _ _ => rfl)
    (fun _ _ _ => rfl) (fun _ _ _ => rfl) rfl rfl rfl

/-! ## C5 — difference accumulation in `verify_parent_trust` -/

/-- The string a loop `for x in l: acc += f x` appends when started empty. -/
def sjoin {α : Type} (f : α → String) (l : List α) : String :=
  l.foldl (fun acc x => acc ++ f x) ""

theorem sjoin_decomp {α : Type} (f : α → String) {x : α} {l : List α}
    (hx : x ∈ l) : ∃ a b, sjoin f l = a ++ (f x ++ b) :=
  str_foldl_decomp f hx ""

theorem alookup_mem {α : Type} {k : String} {v : α} :
    ∀ {d : List (String × α)}, alookup k d = some v → k ∈ d.map Prod.fst := by
  intro d
  induction d with
  | nil => intro h; cases h
  | cons p t ih =>
    obtain ⟨a, w⟩ := p
    intro h
    rw [alookup_cons] at h
    by_cases hp : a = k
    · subst hp
      simp
    · rw [if_neg hp] at h
      exact List.mem_cons_of_mem _ (ih h)

theorem decomp_pos1 {X1 X2 X3 X4 X5 a c b : String}
    (h : X1 = a ++ (c ++ b)) :
    (((X1 ++ X2) ++ X3) ++ X4) ++ X5 =
      a ++ (c ++ ((((b ++ X2) ++ X3) ++ X4) ++ X5)) := by
  subst h
  simp only [String.append_assoc]

theorem decomp_pos2 {X1 X2 X3 X4 X5 a c b : String}
    (h : X2 = a ++ (c ++ b)) :
    (((X1 ++ X2) ++ X3) ++ X4) ++ X5 =
      (X1 ++ a) ++ (c ++ (((b ++ X3) ++ X4) ++ X5)) := by
  subst h
  simp only [String.append_assoc]

theorem decomp_pos4 {X1 X2 X3 X4 X5 a c b : String}
    (h : X4 = a ++ (c ++ b)) :
    (((X1 ++ X2) ++ X3) ++ X4) ++ X5 =
      (((X1 ++ X2) ++ X3) ++ a) ++ (c ++ (b ++ X5)) := by
  subst h
  simp only [String.append_assoc]

theorem decomp_pos5 {X1 X2 X3 X4 X5 a c b : String}
    (h : X5 = a ++ (c ++ b)) :
    (((X1 ++ X2) ++ X3) ++ X4) ++ X5 =
      ((((X1 ++ X2) ++ X3) ++ X4) ++ a) ++ (c ++ b) := by
  subst h
  simp only [String.append_assoc]

/-- The accumulated error body is the concatenation of the five reporting
passes, in source order. -/
theorem trust_diff_errors_structure (env : Env) (fuel : Nat)
    (recipe : RecipeDoc) (od sd : List String) (verbosity : Nat)
    (expected actual : TrustRecord) :
    trust_diff_errors env fuel recipe od sd verbosity expected actual =
      (((sjoin (proc_expected_frag env recipe verbosity expected actual)
            (expected.non_core_processors.map Prod.fst) ++
          sjoin (proc_unexpected_frag env recipe
              (expected.non_core_processors.map Prod.fst))
            (actual.non_core_processors.map Prod.fst)) ++
        (if same_key_set (expected.parent_recipes.map Prod.fst)
            (actual.parent_recipes.map Prod.fst) then ""
          else parent_list_frag (expected.parent_recipes.map Prod.fst))) ++
        sjoin (parent_expected_frag env fuel od sd verbosity expected actual)
          (expected.parent_recipes.map Prod.fst)) ++
      sjoin (parent_unexpected_frag env fuel od sd
          (expected.parent_recipes.map Prod.fst))
        (actual.parent_recipes.map Prod.fst) := by
  unfold trust_diff_errors sjoin
  rw [str_foldl_eq (parent_unexpected_frag env fuel od sd
    (expected.parent_recipes.map Prod.fst))]
  rw [str_foldl_eq (parent_expected_frag env fuel od sd verbosity expected
    actual)]
  rw [str_foldl_eq (proc_unexpected_frag env recipe
    (expected.non_core_processors.map Prod.fst))]
  by_cases hsk : same_key_set (expected.parent_recipes.map Prod.fst)
      (actual.parent_recipes.map Prod.fst)
  · rw [if_pos hsk, if_pos hsk, String.append_empty]
  · rw [if_neg hsk, if_neg hsk]

theorem proc_expected_frag_ne (env : Env) (recipe : RecipeDoc)
    (verbosity : Nat) (expected actual : TrustRecord) (p : String)
    (ent : TrustEntry)
    (hl : alookup p expected.non_core_processors = some ent)
    (hm : (alookup p actual.non_core_processors).map TrustEntry.sha256_hash ≠
      some ent.sha256_hash) :
    proc_expected_frag env recipe verbosity expected actual p ≠ "" := by
  unfold proc_expected_frag
  have hb : ((alookup p actual.non_core_processors).map
      TrustEntry.sha256_hash == some ent.sha256_hash) = false := by
    simpa using hm
  simp only [hl, hb, Bool.false_eq_true, if_false]
  cases hf : find_processor_path env p (some recipe) with
  | some pathv =>
    simp only [hf]
    repeat apply str_append_ne_empty_left
    decide
  | none =>
    simp only [hf]
    repeat apply str_append_ne_empty_left
    decide

theorem proc_unexpected_frag_ne (env : Env) (recipe : RecipeDoc)
    (expected_names : List String) (p : String)
    (hp : ¬ p ∈ expected_names) :
    proc_unexpected_frag env recipe expected_names p ≠ "" := by
  unfold proc_unexpected_frag
  rw [if_neg (by simpa using hp)]
  repeat apply str_append_ne_empty_left
  decide

theorem parent_expected_frag_ne (env : Env) (fuel : Nat)
    (od sd : List String) (verbosity : Nat) (expected actual : TrustRecord)
    (q : String) (ent : TrustEntry)
    (hl : alookup q expected.parent_recipes = some ent)
    (hm : (alookup q actual.parent_recipes).map TrustEntry.sha256_hash ≠
      some ent.sha256_hash) :
    parent_expected_frag env fuel od sd verbosity expected actual q ≠ "" := by
  unfold parent_expected_frag
  have hb : ((alookup q actual.parent_recipes).map
      TrustEntry.sha256_hash == some ent.sha256_hash) = false := by
    simpa using hm
  simp only [hl, hb, Bool.false_eq_true, if_false]
  cases hf : load_recipe env fuel q od sd [] [] false with
  | some prr =>
    simp only [hf]
    repeat apply str_append_ne_empty_left
    decide
  | none =>
    simp only [hf]
    repeat apply str_append_ne_empty_left
    decide

theorem parent_unexpected_frag_ne (env : Env) (fuel : Nat)
    (od sd : List String) (expected_names : List String) (q : String)
    (hq : ¬ q ∈ expected_names) :
    parent_unexpected_frag env fuel od sd expected_names q ≠ "" := by
  unfold parent_unexpected_frag
  rw [if_neg (by simpa using hq)]
  repeat apply str_append_ne_empty_left
  decide

/-- `verify_parent_trust` once the pre-checks pass: equal records succeed at
once, otherwise the accumulated error body is raised when non-empty. -/
theorem verify_reaches_compare (env : Env) (fuel : Nat) (recipe : RecipeDoc)
    (od sd : List String) (verbosity : Nat) (expected : TrustRecord)
    (pid : String) (P : RecipeDoc)
    (ht : recipe.ParentRecipeTrustInfo = some expected)
    (hov : recipe_in_override_dir env (recipe.RECIPE_PATH.getD "") od = true)
    (hext : recipe_from_external_repo env (recipe.RECIPE_PATH.getD "") = false)
    (hpr : recipe.ParentRecipe = some (.idStr pid))
    (hload : load_recipe env fuel pid od sd [] [] false = some P) :
    verify_parent_trust env fuel recipe od sd verbosity =
      (if record_eqv (get_trust_info env fuel P sd) expected then .ok
       else if trust_diff_errors env fuel recipe od sd verbosity expected
           (get_trust_info env fuel P sd) == "" then .ok
       else .error (trust_diff_errors env fuel recipe od sd verbosity expected
         (get_trust_info env fuel P sd))) := by
  have htt : trust_truthy recipe.ParentRecipeTrustInfo = true := by
    rw [ht]; rfl
  simp only [verify_parent_trust, htt, hov, hext, hpr, hload, ht,
    trust_truthy, Option.isSome_some, Bool.not_true, Bool.and_false,
    Bool.false_eq_true, if_false, Bool.true_and, Bool.not_false, if_true]

/-- C5 (as amended).  Once `verify_parent_trust` reaches the record
comparison: byte-identical records succeed immediately; an empty accumulated
body (records differing only in fields the per-field pass does not inspect,
such as `path` or `git_hash`) also succeeds; a non-empty body is raised as one
single `TrustVerificationError`; and the body contains the report fragment of
*every* changed-or-missing processor hash, every unexpected processor, every
changed-or-missing parent-recipe hash and every unexpected parent identifier —
never just the first difference found. -/
theorem C5_trust_diff_accumulation (env : Env) (fuel : Nat)
    (recipe : RecipeDoc) (od sd : List String) (verbosity : Nat)
    (expected actual : TrustRecord) (pid : String) (P : RecipeDoc)
    (errs : String)
    (ht : recipe.ParentRecipeTrustInfo = some expected)
    (hov : recipe_in_override_dir env (recipe.RECIPE_PATH.getD "") od = true)
    (hext : recipe_from_external_repo env (recipe.RECIPE_PATH.getD "") = false)
    (hpr : recipe.ParentRecipe = some (.idStr pid))
    (hload : load_recipe env fuel pid od sd [] [] false = some P)
    (hact : get_trust_info env fuel P sd = actual)
    (herrs : trust_diff_errors env fuel recipe od sd verbosity expected
      actual = errs) :
    (record_eqv actual expected = true →
      verify_parent_trust env fuel recipe od sd verbosity = .ok) ∧
    (errs = "" →
      verify_parent_trust env fuel recipe od sd verbosity = .ok) ∧
    (record_eqv actual expected = false → errs ≠ "" →
      verify_parent_trust env fuel recipe od sd verbosity = .error errs) ∧
    (∀ p ent, alookup p expected.non_core_processors = some ent →
      (alookup p actual.non_core_processors).map TrustEntry.sha256_hash ≠
        some ent.sha256_hash →
      proc_expected_frag env recipe verbosity expected actual p ≠ "" ∧
      ∃ a b, errs =
        a ++ (proc_expected_frag env recipe verbosity expected actual p ++ b)) ∧
    (∀ p, p ∈ actual.non_core_processors.map Prod.fst →
      ¬ p ∈ expected.non_core_processors.map Prod.fst →
      proc_unexpected_frag env recipe
        (expected.non_core_processors.map Prod.fst) p ≠ "" ∧
      ∃ a b, errs = a ++ (proc_unexpected_frag env recipe
        (expected.non_core_processors.map Prod.fst) p ++ b)) ∧
    (∀ q ent, alookup q expected.parent_recipes = some ent →
      (alookup q actual.parent_recipes).map TrustEntry.sha256_hash ≠
        some ent.sha256_hash →
      parent_expected_frag env fuel od sd verbosity expected actual q ≠ "" ∧
      ∃ a b, errs = a ++
        (parent_expected_frag env fuel od sd verbosity expected actual q ++ b)) ∧
    (∀ q, q ∈ actual.parent_recipes.map Prod.fst →
      ¬ q ∈ expected.parent_recipes.map Prod.fst →
      parent_unexpected_frag env fuel od sd
        (expected.parent_recipes.map Prod.fst) q ≠ "" ∧
      ∃ a b, errs = a ++ (parent_unexpected_frag env fuel od sd
        (expected.parent_recipes.map Prod.fst) q ++ b)) := by
  have hv := verify_reaches_compare env fuel recipe od sd verbosity expected
    pid P ht hov hext hpr hload
  rw [hact, herrs] at hv
  have hstruct : errs =
      (((sjoin (proc_expected_frag env recipe verbosity expected actual)
            (expected.non_core_processors.map Prod.fst) ++
          sjoin (proc_unexpected_frag env recipe
              (expected.non_core_processors.map Prod.fst))
            (actual.non_core_processors.map Prod.fst)) ++
        (if same_key_set (expected.parent_recipes.map Prod.fst)
            (actual.parent_recipes.map Prod.fst) then ""
          else parent_list_frag (expected.parent_recipes.map Prod.fst))) ++
        sjoin (parent_expected_frag env fuel od sd verbosity expected actual)
          (expected.parent_recipes.map Prod.fst)) ++
      sjoin (parent_unexpected_frag env fuel od sd
          (expected.parent_recipes.map Prod.fst))
        (actual.parent_recipes.map Prod.fst) := by
    rw [← herrs]
    exact trust_diff_errors_structure env fuel recipe od sd verbosity
      expected actual
  refine ⟨?_, ?_, ?_, ?_, ?_, ?_, ?_⟩
  · intro heqv
    rw [hv, if_pos heqv]
  · intro hemp
    rw [hv]
    by_cases heqv : record_eqv actual expected
    · rw [if_pos heqv]
    · rw [if_neg heqv, if_pos (by simpa using hemp)]
  · intro heqv hne
    rw [hv]
    rw [if_neg (by simp [heqv]), if_neg (by simpa using hne)]
  · intro p ent hl hm
    refine ⟨proc_expected_frag_ne env recipe verbosity expected actual p ent
      hl hm, ?_⟩
    obtain ⟨a, b, hab⟩ := sjoin_decomp
      (proc_expected_frag env recipe verbosity expected actual)
      (alookup_mem hl)
    rw [hstruct]
    exact ⟨_, _, decomp_pos1 hab⟩
  · intro p hp hnp
    refine ⟨proc_unexpected_frag_ne env recipe _ p hnp, ?_⟩
    obtain ⟨a, b, hab⟩ := sjoin_decomp
      (proc_unexpected_frag env recipe
        (expected.non_core_processors.map Prod.fst)) hp
    rw [hstruct]
    exact ⟨_, _, decomp_pos2 hab⟩
  · intro q ent hl hm
    refine ⟨parent_expected_frag_ne env fuel od sd verbosity expected actual
      q ent hl hm, ?_⟩
    obtain ⟨a, b, hab⟩ := sjoin_decomp
      (parent_expected_frag env fuel od sd verbosity expected actual)
      (alookup_mem hl)
    rw [hstruct]
    exact ⟨_, _, decomp_pos4 hab⟩
  · intro q hq hnq
    refine ⟨parent_unexpected_frag_ne env fuel od sd _ q hnq, ?_⟩
    obtain ⟨a, b, hab⟩ := sjoin_decomp
      (parent_unexpected_frag env fuel od sd
        (expected.parent_recipes.map Prod.fst)) hq
    rw [hstruct]
    exact ⟨_, _, decomp_pos5 hab⟩

/-- The resolved form of `docB` produced by loading `"id.B"` with override
directory `/a`. -/
def docB_resolved : RecipeDoc :=
  set_name "id.B" (attach_trust (trust_pair_of wEnv docB "/r/B.recipe" ["/a"])
    (merge_parent_child docA_resolved docB "/r/B.recipe"))

/-- The trust entry recorded for a processor whose file cannot be located. -/
def entNF : TrustEntry :=
  { path := "", sha256_hash := "PROCESSOR FILEPATH NOT FOUND",
    git_hash := none }

/-- The trust record `get_trust_info` computes for the resolved `id.B` chain
in the concrete world. -/
def actualRecB : TrustRecord :=
  { parent_recipes :=
      [("id.A", { path := "/r/A.recipe", sha256_hash := "H" }),
       ("id.B", { path := "/r/B.recipe", sha256_hash := "H" })],
    non_core_processors := [("ProcA", entNF), ("ProcB", entNF)] }

/-- A stored record identical to `actualRecB` except for the `path` of the
`id.A` entry — a field the per-field pass never inspects. -/
def expectedRecPath : TrustRecord :=
  { parent_recipes :=
      [("id.A", { path := "/elsewhere/A.recipe", sha256_hash := "H" }),
       ("id.B", { path := "/r/B.recipe", sha256_hash := "H" })],
    non_core_processors := [("ProcA", entNF), ("ProcB", entNF)] }

/-- A stored record whose `ProcA` hash was tampered with. -/
def expectedRecTampered : TrustRecord :=
  { parent_recipes := actualRecB.parent_recipes,
    non_core_processors :=
      [("ProcA", { path := "", sha256_hash := "TAMPERED", git_hash := none }),
       ("ProcB", entNF)] }

/-- An override (as merged by `load_recipe`) embedding a given stored trust
record, living in the override directory `/a`. -/
def mkOverride (t : TrustRecord) : RecipeDoc :=
  { Identifier := some "id.X", Input := some [], Process := some [],
    ParentRecipe := some (.idStr "id.B"),
    ParentRecipeTrustInfo := some t,
    RECIPE_PATH := some "/a/X.recipe", name := some "X" }

/-- Witness for C5 (as amended): a byte-identical stored record verifies
`.ok`; a tampered processor hash raises one `TrustVerificationError` carrying
the accumulated body, whose `ProcA` fragment is non-empty. -/
theorem C5_trust_diff_accumulation_witness :
    verify_parent_trust wEnv 3 (mkOverride actualRecB) ["/a"] ["/r"] 0 =
      .ok ∧
    verify_parent_trust wEnv 3 (mkOverride expectedRecTampered) ["/a"] ["/r"]
        0 =
      .error (trust_diff_errors wEnv 3 (mkOverride expectedRecTampered)
        ["/a"] ["/r"] 0 expectedRecTampered actualRecB) ∧
    proc_expected_frag wEnv (mkOverride expectedRecTampered) 0
      expectedRecTampered actualRecB "ProcA" ≠ "" := by
  refine ⟨?_, ?_, ?_⟩
  · exact (C5_trust_diff_accumulation wEnv 3 (mkOverride actualRecB) ["/a"]
      ["/r"] 0 actualRecB actualRecB "id.B" docB_resolved
      (trust_diff_errors wEnv 3 (mkOverride actualRecB) ["/a"] ["/r"] 0
        actualRecB actualRecB)
      rfl (by decide) (by decide) rfl (by decide) (by decide) rfl).1
      (by decide)
  · exact (C5_trust_diff_accumulation wEnv 3 (mkOverride expectedRecTampered)
      ["/a"] ["/r"] 0 expectedRecTampered actualRecB "id.B" docB_resolved
      (trust_diff_errors wEnv 3 (mkOverride expectedRecTampered) ["/a"]
        ["/r"] 0 expectedRecTampered actualRecB)
      rfl (by decide) (by decide) rfl (by decide) (by decide) rfl).2.2.1
      (by decide) (by decide)
  · exact ((C5_trust_diff_accumulation wEnv 3 (mkOverride expectedRecTampered)
      ["/a"] ["/r"] 0 expectedRecTampered actualRecB "id.B" docB_resolved
      (trust_diff_errors wEnv 3 (mkOverride expectedRecTampered) ["/a"]
        ["/r"] 0 expectedRecTampered actualRecB)
      rfl (by decide) (by decide) rfl (by decide) (by decide) rfl).2.2.2.1
      "ProcA" { path := "", sha256_hash := "TAMPERED", git_hash := none }
      (by decide) (by decide)).1

/-- Counterexample to C5 as stated: the freshly computed record differs from
the stored one (Python `==` is `False` — only the `id.A` entry's `path`
changed), yet `verify_parent_trust` raises nothing and returns success, since
the per-field pass inspects only hashes and key sets. -/
theorem C5_untracked_difference_passes :
    (mkOverride expectedRecPath).ParentRecipeTrustInfo =
      some expectedRecPath ∧
    (load_recipe wEnv 3 "id.B" ["/a"] ["/r"] [] [] false).map
        (fun P => record_eqv (get_trust_info wEnv 3 P ["/r"])
          expectedRecPath) = some false ∧
    verify_parent_trust wEnv 3 (mkOverride expectedRecPath) ["/a"] ["/r"] 0 =
      .ok := by
  refine ⟨rfl, by decide, by decide⟩

end Autopkg
